import Mathlib

set_option autoImplicit false

namespace Euphoxide

/-!
Shallow embedding of the euphoxide library (a Rust client library for the
Euphoria chat protocol) and proofs about its behaviour.

The embedding follows the source files:
  * src/api/types.rs, src/api/room_cmds.rs, src/api/packets.rs (data model)
  * src/conn.rs (connection machine: Joining/Joined state, reply
    correlation, ping handling)
  * euphoxide-client/src/single.rs (client supervisor event loop)
  * euphoxide-client/src/multi.rs (multi-client aggregator)
  * euphoxide-bot/src/command.rs (command dispatcher)
  * src/api/types.rs (snowflake parsing and formatting)

Rust HashMaps are modelled as association lists (insertion order is
irrelevant to the properties proved here), oneshot channels as integer
waiter tokens paired with an explicit list of delivered values, and
machine integers as Nat with an explicit wrap at 2 ^ 64 where the source
uses wrapping arithmetic. Rust panics (assert failures) are modelled by
returning none. JSON (de)serialization is not modelled: text frames carry
already-parsed packets.
-/

/-! ### api/types.rs: field types -/

/-- UserId from api/types.rs: a string wrapper identifying a user. -/
structure UserId where
  val : String
deriving DecidableEq, Repr

/-- SessionId from api/types.rs: a string wrapper identifying a session. -/
structure SessionId where
  val : String
deriving DecidableEq, Repr

/-- Snowflake from api/types.rs: the base-36 encoding of an unsigned 64-bit
integer. The u64 payload is a Nat; theorems carry the bound n < 2 ^ 64. -/
structure Snowflake where
  val : Nat
deriving DecidableEq, Repr

/-- MessageId from api/types.rs: a Snowflake wrapper. -/
structure MessageId where
  val : Snowflake
deriving DecidableEq, Repr

/-- AccountId from api/types.rs: a Snowflake wrapper. -/
structure AccountId where
  val : Snowflake
deriving DecidableEq, Repr

/-- Time from api/types.rs: seconds since the Unix epoch (i64). -/
structure Time where
  val : Int
deriving DecidableEq, Repr

/-- AuthOption from api/types.rs. -/
inductive AuthOption where
  | Passcode
deriving DecidableEq, Repr

/-- SessionView from api/types.rs: describes a session and its identity. -/
structure SessionView where
  id : UserId
  name : String
  server_id : String
  server_era : String
  session_id : SessionId
  is_staff : Bool
  is_manager : Bool
  client_address : Option String
  real_client_address : Option String
deriving DecidableEq, Repr

/-- PersonalAccountView from api/types.rs. -/
structure PersonalAccountView where
  id : AccountId
  name : String
  email : String
deriving DecidableEq, Repr

/-- Message from api/types.rs: a node in a room's log. -/
structure Message where
  id : MessageId
  parent : Option MessageId
  previous_edit_id : Option Snowflake
  time : Time
  sender : SessionView
  content : String
  encryption_key_id : Option String
  edited : Option Time
  deleted : Option Time
  truncated : Bool
deriving DecidableEq, Repr

/-! ### api/events.rs (module declared in api.rs; the struct fields follow
their uses in src/conn.rs and euphoxide-client/src/single.rs and the wire
shapes given in the spec). Event payloads that no verified function ever
inspects are omitted from the Data constructors below. -/

/-- BounceEvent: auth options required before joining. -/
structure BounceEvent where
  reason : Option String
  auth_options : Option (List AuthOption)
deriving DecidableEq, Repr

/-- HelloEvent: the client's own session view, optional account. -/
structure HelloEvent where
  session : SessionView
  account : Option PersonalAccountView
deriving DecidableEq, Repr

/-- SnapshotEvent: initial roster and optional pre-set nick. -/
structure SnapshotEvent where
  nick : Option String
  listing : List SessionView
deriving DecidableEq, Repr

/-- NetworkEvent: a server-side event impacting session presence. -/
structure NetworkEvent where
  type : String
  server_id : String
  server_era : String
deriving DecidableEq, Repr

/-- NickEvent: another session changed its nick. -/
structure NickEvent where
  session_id : SessionId
  id : UserId
  fromNick : String
  toNick : String
deriving DecidableEq, Repr

/-- PingEvent: a protocol-level ping from the server. -/
structure PingEvent where
  time : Time
deriving DecidableEq, Repr

/-! ### api/session_cmds.rs and api/room_cmds.rs -/

/-- Auth from api/session_cmds.rs. -/
structure Auth where
  type : AuthOption
  passcode : Option String
deriving DecidableEq, Repr

/-- AuthReply from api/session_cmds.rs. -/
structure AuthReply where
  success : Bool
  reason : Option String
deriving DecidableEq, Repr

/-- Ping command from api/session_cmds.rs. -/
structure Ping where
  time : Time
deriving DecidableEq, Repr

/-- PingReply from api/session_cmds.rs. -/
structure PingReply where
  time : Option Time
deriving DecidableEq, Repr

/-- Nick command from api/room_cmds.rs. -/
structure Nick where
  name : String
deriving DecidableEq, Repr

/-- NickReply from api/room_cmds.rs. -/
structure NickReply where
  session_id : SessionId
  id : UserId
  fromNick : String
  toNick : String
deriving DecidableEq, Repr

/-- Send command from api/room_cmds.rs. -/
structure SendCmd where
  content : String
  parent : Option MessageId
deriving DecidableEq, Repr

/-- WhoReply from api/room_cmds.rs: sessions currently joined in the room. -/
structure WhoReply where
  listing : List SessionView
deriving DecidableEq, Repr

/-- LoginReply from api/account_cmds.rs (only the success flag is ever
inspected, by the forced-disconnect check in src/conn.rs). -/
structure LoginReply where
  success : Bool
deriving DecidableEq, Repr

/-- PacketType from api/types.rs (the kebab-case wire identifiers). Only the
types with modelled Data constructors are listed individually; the rest are
collapsed into Other, which no verified function ever inspects. -/
inductive PacketType where
  | BounceEvent
  | DisconnectEvent
  | HelloEvent
  | JoinEvent
  | LoginEvent
  | LogoutEvent
  | NetworkEvent
  | NickEvent
  | EditMessageEvent
  | PartEvent
  | PingEvent
  | PmInitiateEvent
  | SendEvent
  | SnapshotEvent
  | Auth
  | AuthReply
  | Ping
  | PingReply
  | Nick
  | NickReply
  | Send
  | SendReply
  | Who
  | WhoReply
  | Login
  | LoginReply
  | Logout
  | LogoutReply
  | Other (name : String)
deriving DecidableEq, Repr

/-- Data from api/packets.rs: the payload of a command, reply, or event.
Constructors whose payload is never inspected by the verified functions
carry no argument. Unimplemented stands for any valid packet type that the
library does not model as a struct (its raw JSON payload is not modelled). -/
inductive Data where
  | BounceEvent (p : BounceEvent)
  | DisconnectEvent
  | EditMessageEvent
  | HelloEvent (p : HelloEvent)
  | JoinEvent (p : SessionView)
  | LoginEvent
  | LogoutEvent
  | NetworkEvent (p : NetworkEvent)
  | NickEvent (p : NickEvent)
  | PartEvent (p : SessionView)
  | PingEvent (p : PingEvent)
  | PmInitiateEvent
  | SendEvent (p : Message)
  | SnapshotEvent (p : SnapshotEvent)
  | Auth (p : Auth)
  | AuthReply (p : AuthReply)
  | Ping (p : Ping)
  | PingReply (p : PingReply)
  | Nick (p : Nick)
  | NickReply (p : NickReply)
  | Send (p : SendCmd)
  | SendReply (p : Message)
  | Who
  | WhoReply (p : WhoReply)
  | LoginReply (p : LoginReply)
  | LogoutReply
  | Unimplemented (ptype : PacketType)
deriving DecidableEq, Repr

/-- Data::packet_type from api/packets.rs. -/
def Data.packet_type : Data → PacketType
  | .BounceEvent _ => .BounceEvent
  | .DisconnectEvent => .DisconnectEvent
  | .EditMessageEvent => .EditMessageEvent
  | .HelloEvent _ => .HelloEvent
  | .JoinEvent _ => .JoinEvent
  | .LoginEvent => .LoginEvent
  | .LogoutEvent => .LogoutEvent
  | .NetworkEvent _ => .NetworkEvent
  | .NickEvent _ => .NickEvent
  | .PartEvent _ => .PartEvent
  | .PingEvent _ => .PingEvent
  | .PmInitiateEvent => .PmInitiateEvent
  | .SendEvent _ => .SendEvent
  | .SnapshotEvent _ => .SnapshotEvent
  | .Auth _ => .Auth
  | .AuthReply _ => .AuthReply
  | .Ping _ => .Ping
  | .PingReply _ => .PingReply
  | .Nick _ => .Nick
  | .NickReply _ => .NickReply
  | .Send _ => .Send
  | .SendReply _ => .SendReply
  | .Who => .Who
  | .WhoReply _ => .WhoReply
  | .LoginReply _ => .LoginReply
  | .LogoutReply => .LogoutReply
  | .Unimplemented ptype => ptype

/-- Decidable equality for Except values (needed to evaluate packet
comparisons in witnesses). -/
instance instDecEqExcept {ε α : Type} [DecidableEq ε] [DecidableEq α] :
    DecidableEq (Except ε α) := fun x y =>
  match x, y with
  | .error a, .error b =>
      if h : a = b then isTrue (congrArg Except.error h)
      else isFalse (fun hh => h (Except.error.inj hh))
  | .error _, .ok _ => isFalse (fun hh => Except.noConfusion hh)
  | .ok _, .error _ => isFalse (fun hh => Except.noConfusion hh)
  | .ok a, .ok b =>
      if h : a = b then isTrue (congrArg Except.ok h)
      else isFalse (fun hh => h (Except.ok.inj hh))

/-- ParsedPacket from api/packets.rs: a fully parsed and interpreted packet.
content is Ok(data) or Err(server error string). -/
structure ParsedPacket where
  id : Option String
  ptype : PacketType
  content : Except String Data
  throttled : Option String
deriving DecidableEq, Repr

/-! ### src/conn.rs: connection state machine -/

/-- SessionInfo from src/conn.rs: full or partial information about a
session in the room. (The source constructor names are Full and Partial;
the latter is renamed to PartialNick here.) -/
inductive SessionInfo where
  | Full (sess : SessionView)
  | PartialNick (nick : NickEvent)
deriving DecidableEq, Repr

/-- SessionInfo::session_id from src/conn.rs. -/
def SessionInfo.session_id : SessionInfo → SessionId
  | .Full sess => sess.session_id
  | .PartialNick nick => nick.session_id

/-- The roster: HashMap(SessionId, SessionInfo), modelled as an association
list with unique keys. -/
abbrev Listing := List (SessionId × SessionInfo)

/-- HashMap::insert: replace the binding for a key, or append a new one. -/
def Listing.insertEntry : Listing → SessionId → SessionInfo → Listing
  | [], k, v => [(k, v)]
  | (k', v') :: rest, k, v =>
      if k' = k then (k, v) :: rest else (k', v') :: Listing.insertEntry rest k v

/-- HashMap::remove by key. -/
def Listing.removeEntry : Listing → SessionId → Listing
  | [], _ => []
  | (k', v') :: rest, k =>
      if k' = k then rest else (k', v') :: Listing.removeEntry rest k

/-- HashMap::entry(k).and_modify(f).or_insert_with(dflt). -/
def Listing.entryModify : Listing → SessionId → (SessionInfo → SessionInfo) → SessionInfo → Listing
  | [], k, _, dflt => [(k, dflt)]
  | (k', v) :: rest, k, f, dflt =>
      if k' = k then (k', f v) :: rest else (k', v) :: Listing.entryModify rest k f dflt

/-- Joining from src/conn.rs: state before the client has joined the room. -/
structure Joining where
  hello : Option HelloEvent
  snapshot : Option SnapshotEvent
  bounce : Option BounceEvent
deriving DecidableEq, Repr

/-- Joined from src/conn.rs: the client's own session view, optional
account, and the roster. -/
structure Joined where
  session : SessionView
  account : Option PersonalAccountView
  listing : Listing
deriving DecidableEq, Repr

/-- Joined::on_data from src/conn.rs. The NickReply arm contains
assert_eq!(self.session.id, p.id); an assertion failure (a Rust panic) is
modelled by returning none. The who reply falls into the catch-all arm:
the source deliberately ignores it ("The who reply is broken and can't be
trusted right now, so we'll not even look at it."). -/
def Joined.on_data (j : Joined) (data : Data) : Option Joined :=
  match data with
  | .JoinEvent p =>
      some { j with listing := j.listing.insertEntry p.session_id (.Full p) }
  | .SendEvent p =>
      some { j with listing := j.listing.insertEntry p.sender.session_id (.Full p.sender) }
  | .PartEvent p =>
      some { j with listing := j.listing.removeEntry p.session_id }
  | .NetworkEvent p =>
      if p.type = ("partition") then
        some { j with listing := (j.listing.filter fun kv =>
          match kv.2 with
          | .Full s => (s.server_id != p.server_id) && (s.server_era != p.server_era)
          | .PartialNick _ => false) }
      else
        some j
  | .NickEvent p =>
      some { j with listing := (j.listing.entryModify p.session_id
        (fun s =>
          match s with
          | .Full session => .Full { session with name := p.toNick }
          | .PartialNick _ => .PartialNick p)
        (.PartialNick p)) }
  | .NickReply p =>
      if j.session.id = p.id then
        some { j with session := { j.session with name := p.toNick } }
      else
        none
  | _ => some j

/-- Joining::on_data from src/conn.rs. Certain events are protocol
violations before the join completes. -/
def Joining.on_data (jg : Joining) (data : Data) : Except String Joining :=
  match data with
  | .BounceEvent p => .ok { jg with bounce := some p }
  | .HelloEvent p => .ok { jg with hello := some p }
  | .SnapshotEvent p => .ok { jg with snapshot := some p }
  | .JoinEvent _ => .error ("unexpected packet type")
  | .NetworkEvent _ => .error ("unexpected packet type")
  | .NickEvent _ => .error ("unexpected packet type")
  | .EditMessageEvent => .error ("unexpected packet type")
  | .PartEvent _ => .error ("unexpected packet type")
  | .PmInitiateEvent => .error ("unexpected packet type")
  | .SendEvent _ => .error ("unexpected packet type")
  | _ => .ok jg

/-- Joining::joined from src/conn.rs: the transition to Joined once both a
hello and a snapshot have been observed. The snapshot listing is collected
into the roster map. -/
def Joining.joined (jg : Joining) : Option Joined :=
  match jg.hello, jg.snapshot with
  | some hello, some snapshot =>
      let session :=
        match snapshot.nick with
        | some nick => { hello.session with name := nick }
        | none => hello.session
      let listing := snapshot.listing.foldl
        (fun l s => Listing.insertEntry l s.session_id (.Full s)) []
      some { session := session, account := hello.account, listing := listing }
  | _, _ => none

/-- State from src/conn.rs. -/
inductive State where
  | Joining (jg : Joining)
  | Joined (j : Joined)
deriving DecidableEq, Repr

/-! ### Claim C1: partition handling in Joined::on_data -/

/-- A helper to build a full session view concisely. -/
def mkSession (uid name sid sera ssid : String) : SessionView :=
  { id := { val := uid }
    name := name
    server_id := sid
    server_era := sera
    session_id := { val := ssid }
    is_staff := false
    is_manager := false
    client_address := none
    real_client_address := none }

/-- Roster for the partition scenario of the spec: two full entries on
server S with eras E1 and E2, one full entry on another server with era E1,
and one partial entry. -/
def partitionJoined : Joined :=
  { session := mkSession ("bot:self") ("bot") ("s9") ("e9") ("sid0")
    account := none
    listing :=
      [ ({ val := ("sid1") }, .Full (mkSession ("u1") ("alice") ("S") ("E1") ("sid1")))
      , ({ val := ("sid2") }, .Full (mkSession ("u2") ("bob") ("S") ("E2") ("sid2")))
      , ({ val := ("sid3") }, .Full (mkSession ("u3") ("carol") ("T") ("E1") ("sid3")))
      , ({ val := ("sid4") }, .PartialNick
          { session_id := { val := ("sid4") }, id := { val := ("u4") },
            fromNick := ("x"), toNick := ("dave") }) ] }

/-- C1 (code bug): in the Joined state, a partition network event for
(server id S, era E1) is claimed to remove exactly the full entries whose
server id AND era both match (and all partial entries), keeping in
particular a full entry that shares only the id or only the era. The code
instead retains a full entry only when its server id and its era BOTH
differ, i.e. it removes every entry matching the id OR the era: starting
from a roster with entries on (S,E1), (S,E2), (T,E1) and one partial,
the event removes all four, while the claim predicts that (S,E2) and (T,E1)
remain. -/
theorem c1_partition_removes_on_id_or_era_match :
    Joined.on_data partitionJoined
        (.NetworkEvent { type := ("partition"), server_id := ("S"), server_era := ("E1") }) =
      some { partitionJoined with listing := [] } := by
  decide

/-! ### Claim C7: who-reply handling in Joined::on_data -/

/-- Roster for the who-reply scenario: one full entry for alice. -/
def whoJoined : Joined :=
  { session := mkSession ("bot:self") ("bot") ("s9") ("e9") ("sid0")
    account := none
    listing := [ ({ val := ("sid1") }, .Full (mkSession ("u1") ("alice") ("S") ("E1") ("sid1"))) ] }

/-- The who reply used in the counterexample: a listing containing only bob
(a session distinct from every roster entry and from the client's own). -/
def whoReplyB : WhoReply :=
  { listing := [ mkSession ("u2") ("bob") ("S") ("E1") ("sid2") ] }

/-- C7 (counterexample): a who-reply is claimed to replace the entire
roster with the reply's listing. On the code it does not: applying a
who-reply whose listing contains only the session sid2 leaves the roster
unchanged, still containing exactly the old entry sid1 and not containing
sid2. (src/conn.rs routes Data::WhoReply into the catch-all arm.) -/
theorem c7_who_reply_not_applied :
    Joined.on_data whoJoined (.WhoReply whoReplyB) = some whoJoined ∧
    whoJoined.listing.map Prod.fst = [{ val := ("sid1") }] ∧
    (whoReplyB.listing.map SessionView.session_id) = [{ val := ("sid2") }] := by
  decide

/-- C7 (amended): in the Joined state of src/conn.rs, a who-reply is
deliberately ignored: it leaves the roster, the session view and the
account view unchanged. -/
theorem c7_who_reply_leaves_state_unchanged (j : Joined) (p : WhoReply) :
    Joined.on_data j (.WhoReply p) = some j := rfl

/-! ### Claim C10: nick-reply assertion in Joined::on_data -/

/-- C10: the nick-reply arm asserts that the reply's user id equals the
client's own session id. Under that precondition the update never panics
and sets the client's own display name to the reply's new nick; for any
other user id the assertion fails (modelled as none, a panic inside recv). -/
theorem c10_nick_reply_assert (j : Joined) (p : NickReply) :
    (j.session.id = p.id →
      Joined.on_data j (.NickReply p) =
        some { j with session := { j.session with name := p.toNick } }) ∧
    (j.session.id ≠ p.id → Joined.on_data j (.NickReply p) = none) := by
  refine ⟨fun h => ?_, fun h => ?_⟩ <;> simp [Joined.on_data, h]

/-- A nick reply whose user id matches the example client. -/
def nickReplyOwn : NickReply :=
  { session_id := { val := ("sid0") }, id := { val := ("bot:self") },
    fromNick := ("bot"), toNick := ("newbot") }

/-- A nick reply whose user id does not match the example client. -/
def nickReplyForeign : NickReply :=
  { session_id := { val := ("sid1") }, id := { val := ("u1") },
    fromNick := ("alice"), toNick := ("eve") }

/-- C10 witness: both implications of the assertion theorem evaluated at
concrete inputs. -/
theorem c10_nick_reply_assert_witness :
    Joined.on_data whoJoined (.NickReply nickReplyOwn) =
        some { whoJoined with session := { whoJoined.session with name := ("newbot") } } ∧
    Joined.on_data whoJoined (.NickReply nickReplyForeign) = none :=
  ⟨(c10_nick_reply_assert whoJoined nickReplyOwn).1 (by decide),
   (c10_nick_reply_assert whoJoined nickReplyForeign).2 (by decide)⟩

/-! ### src/conn.rs: the connection machine (struct Conn)

The websocket, the mpsc command channel and the oneshot reply channels are
externalized: incoming websocket messages and handle commands arrive as
explicit events, outgoing frames accumulate in a sent list, and each
oneshot sender is identified by an integer waiter token, with the values
sent through senders accumulating in a delivered list. Transport writes
and JSON encoding are modelled as infallible. -/

/-- enum Error from src/conn.rs (the error type of the connection machine;
the Tungstenite and SerdeJson payloads are reduced to message strings). -/
inductive ConnError where
  | ConnectionClosed
  | CommandTimedOut
  | ProtocolViolation (msg : String)
  | Euph (msg : String)
  | Tungstenite (err : String)
  | SerdeJson (err : String)
deriving DecidableEq, Repr

/-- Look up the waiter token registered for an id (HashMap::remove lookup). -/
def pendingLookup : List (String × Nat) → String → Option Nat
  | [], _ => none
  | (k, v) :: rest, id => if k = id then some v else pendingLookup rest id

/-- Remove the binding for an id (HashMap::remove). -/
def pendingRemove : List (String × Nat) → String → List (String × Nat)
  | [], _ => []
  | (k, v) :: rest, id => if k = id then rest else (k, v) :: pendingRemove rest id

/-- Insert or replace the binding for an id (HashMap::insert). -/
def pendingInsert : List (String × Nat) → String → Nat → List (String × Nat)
  | [], id, tok => [(id, tok)]
  | (k, v) :: rest, id, tok =>
      if k = id then (id, tok) :: rest else (k, v) :: pendingInsert rest id tok

/-- Replies from src/replies.rs: the in-flight map from correlation id to a
oneshot completion handle, plus the list of values actually sent through
those handles (so that what each waiter receives is observable). The
per-command timeout and the periodic purge are scheduling concerns with no
bearing on the properties proved here and are not modelled. -/
structure Replies where
  pending : List (String × Nat)
  delivered : List (Nat × ParsedPacket)
deriving DecidableEq, Repr

/-- Replies::complete from src/replies.rs: a matching pending entry is
removed and receives the result. -/
def Replies.complete (r : Replies) (id : String) (result : ParsedPacket) : Replies :=
  match pendingLookup r.pending id with
  | none => r
  | some tok =>
      { pending := pendingRemove r.pending id,
        delivered := r.delivered ++ [(tok, result)] }

/-- Replies::wait_for from src/replies.rs: register a fresh oneshot pair
for an id; the receiving end is identified by the waiter token. -/
def Replies.wait_for (r : Replies) (id : String) (tok : Nat) : Replies :=
  { r with pending := pendingInsert r.pending id tok }

/-- Outgoing websocket frames (tungstenite::Message); the ws ping payload
(nanoseconds encoded big-endian in the source) is modelled by the integer
itself, since only equality of payloads is ever observed. -/
inductive WsOut where
  | text (p : ParsedPacket)
  | ping (payload : Int)
deriving DecidableEq, Repr

/-- Incoming websocket messages (tungstenite::Message). Text frames carry
already-parsed packets: the JSON layer is not modelled. -/
inductive WsIn where
  | text (p : ParsedPacket)
  | binary
  | ping
  | pong (payload : Int)
  | close
  | frame
deriving DecidableEq, Repr

/-- ConnCommand from src/conn.rs: commands arriving over the handle channel.
SendCmd carries the oneshot sender for the pending reply as a waiter token;
GetState replies with a state clone and does not change the connection. -/
inductive ConnCommand where
  | SendCmd (data : Data) (reply_tx : Nat)
  | GetState
deriving DecidableEq, Repr

/-- struct Conn from src/conn.rs, minus the websocket and channel halves
(externalized as events and the sent list). closed records whether
ws.close was called; last_ping (an Instant in the source) is identified
with the wall clock of the ping events. -/
structure Conn where
  last_id : Nat
  replies : Replies
  last_ping : Int
  last_ws_ping_payload : Option Int
  last_ws_ping_replied_to : Bool
  last_euph_ping_payload : Option Time
  last_euph_ping_replied_to : Bool
  state : State
  closed : Bool
  sent : List WsOut
deriving DecidableEq, Repr

/-- Conn::wrap from src/conn.rs: the initial connection state. -/
def Conn.wrap : Conn :=
  { last_id := 0,
    replies := { pending := [], delivered := [] },
    last_ping := 0,
    last_ws_ping_payload := none,
    last_ws_ping_replied_to := false,
    last_euph_ping_payload := none,
    last_euph_ping_replied_to := false,
    state := .Joining { hello := none, snapshot := none, bounce := none },
    closed := false,
    sent := [] }

/-- Conn::send_cmd from src/conn.rs: allocate the next id (wrapping usize
counter, wrap modelled at 2 ^ 64), frame the packet as a text message, hand
it to the transport, and register the pending reply for the id. -/
def Conn.send_cmd (c : Conn) (data : Data) (reply_tx : Nat) : Conn :=
  let last_id := (c.last_id + 1) % (2 ^ 64)
  let id := toString last_id
  let packet : ParsedPacket :=
    { id := some id, ptype := data.packet_type, content := .ok data, throttled := none }
  { c with
      last_id := last_id,
      sent := c.sent ++ [.text packet],
      replies := c.replies.wait_for id reply_tx }

/-- Conn::send_rpl from src/conn.rs: frame a reply packet (reusing the
given id) and hand it to the transport. -/
def Conn.send_rpl (c : Conn) (id : Option String) (data : Data) : Conn :=
  let packet : ParsedPacket :=
    { id := id, ptype := data.packet_type, content := .ok data, throttled := none }
  { c with sent := c.sent ++ [.text packet] }

/-- Conn::disconnect from src/conn.rs: close the websocket and fail with
ConnectionClosed. -/
def Conn.disconnect (c : Conn) : Conn × Except ConnError Unit :=
  ({ c with closed := true }, .error (.ConnectionClosed))

/-- The packet types on which src/conn.rs forces a disconnect after the
state update (the matches! block in Conn::on_data). -/
def Data.forcesDisconnect : Data → Bool
  | .DisconnectEvent => true
  | .LoginEvent => true
  | .LogoutEvent => true
  | .LoginReply p => p.success
  | .LogoutReply => true
  | _ => false

/-- Conn::on_data from src/conn.rs: answer protocol pings, update the
room state (a panic in Joined::on_data is modelled as none), then force a
disconnect for the packet types the server should have disconnected on.
The Conn in the result is the connection at the point of return. -/
def Conn.on_data (c : Conn) (id : Option String) (data : Data) :
    Conn × Option (Except ConnError Unit) :=
  let c :=
    match data with
    | .PingReply p =>
        if c.last_euph_ping_payload.isSome && (c.last_euph_ping_payload == p.time) then
          { c with last_euph_ping_replied_to := true }
        else c
    | .PingEvent p => c.send_rpl id (.PingReply { time := some p.time })
    | _ => c
  let step :=
    fun (c : Conn) =>
      if data.forcesDisconnect then
        let (c, e) := c.disconnect
        (c, some e)
      else (c, some (.ok ()))
  match c.state with
  | .Joining jg =>
      match jg.on_data data with
      | .error msg => (c, some (.error (.ProtocolViolation msg)))
      | .ok jg' =>
          match jg'.joined with
          | some j => step { c with state := .Joined j }
          | none => step { c with state := .Joining jg' }
  | .Joined j =>
      match j.on_data data with
      | none => (c, none)
      | some j' => step { c with state := .Joined j' }

/-- Conn::on_packet from src/conn.rs: complete the pending reply if the
packet has an id, then either apply the payload to the state or fail with
the server's error string. -/
def Conn.on_packet (c : Conn) (packet : ParsedPacket) :
    Conn × Option (Except ConnError Unit) :=
  let c :=
    match packet.id with
    | some id => { c with replies := c.replies.complete id packet }
    | none => c
  match packet.content with
  | .ok data => c.on_data packet.id data
  | .error msg => (c, some (.error (.Euph msg)))

/-- Conn::on_ws from src/conn.rs: handle one websocket message. An ok none
result means the recv loop keeps going; ok (some packet) means recv
returns the packet. -/
def Conn.on_ws (c : Conn) (msg : Option (Except String WsIn)) :
    Conn × Option (Except ConnError (Option ParsedPacket)) :=
  match msg with
  | none => (c, some (.error (.ConnectionClosed)))
  | some (.error e) => (c, some (.error (.Tungstenite e)))
  | some (.ok m) =>
      match m with
      | .text packet =>
          let (c, r) := c.on_packet packet
          match r with
          | none => (c, none)
          | some (.error e) => (c, some (.error e))
          | some (.ok _) => (c, some (.ok (some packet)))
      | .binary => (c, some (.error (.ProtocolViolation ("unexpected binary ws message"))))
      | .ping => (c, some (.ok none))
      | .pong payload =>
          if c.last_ws_ping_payload == some payload then
            ({ c with last_ws_ping_replied_to := true }, some (.ok none))
          else (c, some (.ok none))
      | .close => (c, some (.ok none))
      | .frame => (c, some (.ok none))

/-- Conn::on_ping from src/conn.rs: on a ping tick, first check the
previous pings of both layers, disconnecting if either was sent but not
acknowledged; otherwise send a fresh transport ping (payload: the current
wall time) and a fresh protocol ping command. Note that the source never
resets the two replied-to flags. now stands for the current wall time in
nanoseconds; the protocol ping payload is the corresponding second count. -/
def Conn.on_ping (c : Conn) (now : Int) : Conn × Option (Except ConnError Unit) :=
  if c.last_ws_ping_payload.isSome && !c.last_ws_ping_replied_to then
    let (c, e) := c.disconnect
    (c, some e)
  else if c.last_euph_ping_payload.isSome && !c.last_euph_ping_replied_to then
    let (c, e) := c.disconnect
    (c, some e)
  else
    let ws_payload := now
    let c := { c with
        last_ws_ping_payload := some ws_payload,
        sent := c.sent ++ [WsOut.ping ws_payload] }
    let euph_payload : Time := { val := now / 1000000000 }
    let c := { c with last_euph_ping_payload := some euph_payload }
    let c := c.send_cmd (.Ping { time := euph_payload }) 0
    ({ c with last_ping := now }, some (.ok ()))

/-- Conn::on_cmd from src/conn.rs. -/
def Conn.on_cmd (c : Conn) (cmd : ConnCommand) : Conn × Option (Except ConnError Unit) :=
  match cmd with
  | .SendCmd data reply_tx => (c.send_cmd data reply_tx, some (.ok ()))
  | .GetState => (c, some (.ok ()))

/-- The events the select in Conn::recv from src/conn.rs multiplexes. -/
inductive ConnEvent where
  | ws (msg : Option (Except String WsIn))
  | cmd (cmd : ConnCommand)
  | ping (now : Int)
deriving DecidableEq, Repr

/-- One iteration of the Conn::recv loop from src/conn.rs: ok none means
the loop continues, ok (some packet) means recv returns the packet, an
error is returned from recv, and none is a panic inside recv. -/
def Conn.recvStep (c : Conn) (ev : ConnEvent) :
    Conn × Option (Except ConnError (Option ParsedPacket)) :=
  match ev with
  | .ws msg => c.on_ws msg
  | .cmd cmd =>
      let (c, r) := c.on_cmd cmd
      (c, r.map (fun x => x.map (fun _ => none)))
  | .ping now =>
      let (c, r) := c.on_ping now
      (c, r.map (fun x => x.map (fun _ => none)))

/-- The outcome a waiter observes on its oneshot receiver
(PendingReply::get from src/replies.rs): the reply value, a timeout, or
cancellation. -/
inductive ReplyOutcome where
  | completed (p : ParsedPacket)
  | timedOut
  | canceled
deriving DecidableEq, Repr

/-- ConnTx::finish_send from src/conn.rs: the async part of sending a
command. The first receiver error (rx dropped before a PendingReply
arrived) is ConnectionClosed; a reply timeout is CommandTimedOut; a
cancelled waiter is ConnectionClosed; a reply whose content is a server
error string resolves to Euph; otherwise the data is converted to the
typed reply (decode stands for the TryFrom conversion). -/
def ConnTx.finish_send {R : Type} (decode : Data → Option R)
    (rx : Except Unit ReplyOutcome) : Except ConnError R :=
  match rx with
  | .error _ => .error (.ConnectionClosed)
  | .ok .timedOut => .error (.CommandTimedOut)
  | .ok .canceled => .error (.ConnectionClosed)
  | .ok (.completed pkt) =>
      match pkt.content with
      | .error msg => .error (.Euph msg)
      | .ok data =>
          match decode data with
          | none => .error (.ProtocolViolation ("incorrect command reply type"))
          | some r => .ok r

/-! ### Claim C2: server error replies -/

/-- The connection used in the C2 scenario: one pending command with
correlation id 1, awaited by waiter token 7. -/
def connC2 : Conn :=
  { Conn.wrap with last_id := 1, replies := { pending := [(("1"), 7)], delivered := [] } }

/-- The server's error reply to command 1. -/
def errPktC2 : ParsedPacket :=
  { id := some ("1"), ptype := .SendReply, content := .error ("foo"), throttled := none }

/-- C2 (counterexample): when a received packet's content is a server error
string, the pending reply for its id is completed with the packet and the
send_command future resolves to Euph(string); but recv does not continue:
Conn::on_packet returns Err(Euph(string)), which propagates out of recv,
so the caller observes the error instead of the packet. -/
theorem c2_recv_errors_on_error_packet :
    (connC2.recvStep (.ws (some (.ok (.text errPktC2))))).2 =
        some (.error (.Euph ("foo"))) ∧
    (connC2.recvStep (.ws (some (.ok (.text errPktC2))))).1.replies.delivered =
        [(7, errPktC2)] ∧
    ConnTx.finish_send (fun d => some d) (.ok (.completed errPktC2)) =
        .error (.Euph ("foo")) := by
  decide

/-- C2 (amended): a packet whose content is a server error string and whose
id has a pending command completes that command's waiter with the packet —
whose future therefore resolves to Euph(string) — but recv itself then
returns the Euph error for that packet rather than the packet, ending the
connection's processing loop. -/
theorem c2_error_reply_resolves_future_but_recv_errors
    (c : Conn) (id msg : String) (tok : Nat) (pkt : ParsedPacket)
    (hid : pkt.id = some id)
    (hcontent : pkt.content = Except.error msg)
    (hpend : pendingLookup c.replies.pending id = some tok) :
    (c.recvStep (.ws (some (.ok (.text pkt))))).1.replies.delivered =
        c.replies.delivered ++ [(tok, pkt)] ∧
    (c.recvStep (.ws (some (.ok (.text pkt))))).2 = some (.error (.Euph msg)) ∧
    ConnTx.finish_send (fun d => some d) (.ok (.completed pkt)) = .error (.Euph msg) := by
  simp [Conn.recvStep, Conn.on_ws, Conn.on_packet, Replies.complete,
    ConnTx.finish_send, hid, hcontent, hpend]

/-- C2 witness: the amended theorem applied at the concrete scenario. -/
theorem c2_amended_witness :
    (connC2.recvStep (.ws (some (.ok (.text errPktC2))))).1.replies.delivered =
        connC2.replies.delivered ++ [(7, errPktC2)] ∧
    (connC2.recvStep (.ws (some (.ok (.text errPktC2))))).2 =
        some (.error (.Euph ("foo"))) ∧
    ConnTx.finish_send (fun d => some d) (.ok (.completed errPktC2)) =
        .error (.Euph ("foo")) :=
  c2_error_reply_resolves_future_but_recv_errors connC2 ("1") ("foo") 7 errPktC2
    (by decide) (by decide) (by decide)

/-! ### Claim C5: ping timeouts -/

/-- A connection with a transport ping sent but not acknowledged. -/
def pingPendingConn : Conn := { Conn.wrap with last_ws_ping_payload := some 5 }

/-- The server's reply to the protocol ping sent at wall time 1. -/
def euphPingReplyPkt : ParsedPacket :=
  { id := none, ptype := .PingReply,
    content := .ok (.PingReply { time := some { val := 0 } }), throttled := none }

/-- Tick 1: fresh pings on both layers. -/
def pingScn1 : Conn := (Conn.wrap.on_ping 1).1

/-- A matching transport pong arrives. -/
def pingScn2 : Conn := (pingScn1.recvStep (.ws (some (.ok (.pong 1))))).1

/-- A matching protocol ping reply arrives. -/
def pingScn3 : Conn := (pingScn2.recvStep (.ws (some (.ok (.text euphPingReplyPkt))))).1

/-- Tick 2: both layers acknowledged, so new pings go out — but the
replied-to flags are not reset. -/
def pingScn4 : Conn := (pingScn3.on_ping 2).1

/-- C5 (counterexample): an unacknowledged ping closes the connection with
ConnectionClosed — there is no PingTimeout variant in the connection's
error enum, so recv cannot return one. Moreover, because the replied-to
flags are never reset, a ping that was not acknowledged since the last
tick does not close the connection once any earlier ping of that layer was
acknowledged: after tick 1 is acknowledged on both layers and tick 2 is
acknowledged on neither, tick 3 still succeeds. -/
theorem c5_ping_timeout_counterexample :
    (pingPendingConn.on_ping 0).2 = some (.error (.ConnectionClosed)) ∧
    (pingPendingConn.on_ping 0).1.closed = true ∧
    pingScn4.last_ws_ping_payload = some 2 ∧
    pingScn4.last_ws_ping_replied_to = true ∧
    (pingScn4.on_ping 3).2 = some (.ok ()) ∧
    (pingScn4.on_ping 3).1.closed = false := by
  decide

/-- C5 (amended): on a ping tick, if either layer has a ping outstanding
whose replied-to flag is false (the flag is set by a matching
acknowledgement and never reset), the connection closes and recv returns
the ConnectionClosed error. -/
theorem c5_unacked_ping_closes_with_connection_closed (c : Conn) (now : Int)
    (h : (c.last_ws_ping_payload.isSome = true ∧ c.last_ws_ping_replied_to = false) ∨
         (c.last_euph_ping_payload.isSome = true ∧ c.last_euph_ping_replied_to = false)) :
    (c.on_ping now).1.closed = true ∧
    (c.on_ping now).2 = some (.error (.ConnectionClosed)) := by
  unfold Conn.on_ping
  rcases h with ⟨h1, h2⟩ | ⟨h1, h2⟩
  · simp [Conn.disconnect, h1, h2]
  · by_cases hws : (c.last_ws_ping_payload.isSome && !c.last_ws_ping_replied_to) = true
    · simp [Conn.disconnect, hws]
    · simp [Conn.disconnect, hws, h1, h2]

/-- C5 witness: the amended theorem applied at the concrete connection with
an unacknowledged transport ping. -/
theorem c5_amended_witness :
    (pingPendingConn.on_ping 7).1.closed = true ∧
    (pingPendingConn.on_ping 7).2 = some (.error (.ConnectionClosed)) :=
  c5_unacked_ping_closes_with_connection_closed pingPendingConn 7 (Or.inl (by decide))

/-! ### euphoxide-client/src/multi.rs: the multi-client aggregator -/

/-- The aspects of a Client (single.rs) that the aggregator observes: the
id it was spawned under, its configuration (opaque here, a number standing
for the caller's identity/config), and whether its task has stopped
(Client::stopped, i.e. cmd_tx.is_closed()). Client::new always returns a
running client. -/
structure MClient where
  id : Nat
  config : Nat
  stopped : Bool
deriving DecidableEq, Repr

/-- MultiClientTask from multi.rs: the aggregator's client table, keyed by
its internal counter next_id. -/
structure MultiClientTask where
  next_id : Nat
  clients : List (Nat × MClient)
deriving DecidableEq, Repr

/-- The aggregator state spawned by MultiClient::new_with_config. -/
def MultiClientTask.initial : MultiClientTask := { next_id := 0, clients := [] }

/-- MultiClientTask::purge_clients from multi.rs. -/
def MultiClientTask.purge_clients (t : MultiClientTask) : MultiClientTask :=
  { t with clients := t.clients.filter (fun kv => !kv.2.stopped) }

/-- Command from multi.rs (the aggregator's channel commands). -/
inductive MultiCommand where
  | GetClients
  | AddClient (config : Nat)
deriving DecidableEq, Repr

/-- The reply the aggregator sends back over the command's oneshot. -/
inductive MultiReply where
  | clients (cs : List MClient)
  | client (c : MClient)
deriving DecidableEq, Repr

/-- The Client a MultiClientTask::on_cmd AddClient arm spawns. -/
def mkClient (id config : Nat) : MClient :=
  { id := id, config := config, stopped := false }

/-- MultiClientTask::on_cmd from multi.rs. The AddClient arm takes the next
fresh id, asserts it is not already in the table (none models the panic),
spawns a new Client under it unconditionally — no existing entry is looked
up — records it, and replies with it. The GetClients arm purges stopped
clients and replies with a snapshot. -/
def MultiClientTask.on_cmd (t : MultiClientTask) (cmd : MultiCommand) :
    Option (MultiClientTask × MultiReply) :=
  match cmd with
  | .GetClients =>
      let t := t.purge_clients
      some (t, .clients (t.clients.map Prod.snd))
  | .AddClient config =>
      let id := t.next_id
      if t.clients.any (fun kv => kv.1 == id) then none
      else
        let client := mkClient id config
        some ({ t with
                  next_id := t.next_id + 1,
                  clients := t.clients ++ [(id, client)] },
              .client client)

/-- C6 (counterexample): add_client is claimed to be idempotent per
identity. It is not: two AddClient commands with the same configuration,
processed from the empty aggregator state, spawn and record two distinct
running clients (ids 0 and 1), and the two callers receive different
handles. -/
theorem c6_add_client_not_idempotent :
    MultiClientTask.initial.on_cmd (.AddClient 42) =
      some ({ next_id := 1, clients := [(0, mkClient 0 42)] }, .client (mkClient 0 42)) ∧
    (MultiClientTask.on_cmd { next_id := 1, clients := [(0, mkClient 0 42)] }
        (.AddClient 42)) =
      some ({ next_id := 2, clients := [(0, mkClient 0 42), (1, mkClient 1 42)] },
        .client (mkClient 1 42)) ∧
    mkClient 0 42 ≠ mkClient 1 42 ∧
    (mkClient 0 42).stopped = false ∧ (mkClient 1 42).stopped = false := by
  decide

/-- C6 (amended): every AddClient command spawns a fresh client under a new
internal id, even when the same configuration already has a live entry: in
any aggregator state whose table keys are below next_id, two AddClient
commands with the same configuration return two distinct clients and both
end up recorded alongside any existing entries. -/
theorem c6_add_client_always_spawns (t : MultiClientTask) (config : Nat)
    (hkeys : ∀ kv ∈ t.clients, kv.1 < t.next_id) :
    t.on_cmd (.AddClient config) =
      some ({ t with
                next_id := t.next_id + 1,
                clients := t.clients ++ [(t.next_id, mkClient t.next_id config)] },
            .client (mkClient t.next_id config)) ∧
    (MultiClientTask.on_cmd
        { t with
            next_id := t.next_id + 1,
            clients := t.clients ++ [(t.next_id, mkClient t.next_id config)] }
        (.AddClient config)) =
      some ({ t with
                next_id := t.next_id + 2,
                clients := t.clients ++ [(t.next_id, mkClient t.next_id config),
                  (t.next_id + 1, mkClient (t.next_id + 1) config)] },
            .client (mkClient (t.next_id + 1) config)) ∧
    mkClient t.next_id config ≠ mkClient (t.next_id + 1) config := by
  have h1 : t.clients.any (fun kv => kv.1 == t.next_id) = false := by
    simp only [List.any_eq_false]
    intro kv hkv
    have := hkeys kv hkv
    simp only [beq_iff_eq]
    omega
  have h2 : (t.clients ++ [(t.next_id, mkClient t.next_id config)]).any
      (fun kv => kv.1 == t.next_id + 1) = false := by
    simp only [List.any_eq_false, List.mem_append, List.mem_singleton]
    rintro kv (hkv | rfl)
    · have := hkeys kv hkv
      simp only [beq_iff_eq]
      omega
    · simp only [beq_iff_eq]
      omega
  refine ⟨?_, ?_, ?_⟩
  · simp [MultiClientTask.on_cmd, h1]
  · simp only [MultiClientTask.on_cmd, h2, Bool.false_eq_true, if_false, List.append_assoc,
      List.cons_append, List.nil_append, Option.some.injEq, Prod.mk.injEq,
      MultiClientTask.mk.injEq, and_true, true_and]
  · simp [mkClient]

/-- C6 witness: the amended theorem applied at the empty aggregator. -/
theorem c6_add_client_always_spawns_witness :
    MultiClientTask.initial.on_cmd (.AddClient 9) =
      some ({ MultiClientTask.initial with
                next_id := 1, clients := [(0, mkClient 0 9)] },
            .client (mkClient 0 9)) ∧
    (MultiClientTask.on_cmd
        { MultiClientTask.initial with next_id := 1, clients := [(0, mkClient 0 9)] }
        (.AddClient 9)) =
      some ({ MultiClientTask.initial with
                next_id := 2, clients := [(0, mkClient 0 9), (1, mkClient 1 9)] },
            .client (mkClient 1 9)) ∧
    mkClient 0 9 ≠ mkClient 1 9 := by
  have h := c6_add_client_always_spawns MultiClientTask.initial 9 (by
    intro kv hkv
    simp [MultiClientTask.initial] at hkv)
  simpa [MultiClientTask.initial] using h

/-! ### euphoxide-bot/src/command.rs: the command dispatcher -/

/-- Propagate from command.rs: whether a message should propagate to
subsequent commands. -/
inductive Propagate where
  | No
  | Yes
deriving DecidableEq, Repr

/-- A command in the dispatcher's ordered list: Command::execute(arg, msg,
ctx) decides Propagate or fails with the dispatcher's error type (fixed to
String here). handle_message always passes the message content as the
initial arg, and the context is not observed by the dispatcher itself. cid
identifies the command so that the order of invocation is observable. -/
structure BotCommand where
  cid : Nat
  execute : String → Message → Except String Propagate

/-- Commands::handle_message from command.rs, instrumented with the list of
commands actually invoked, in order: walk the commands in insertion order;
a command returning No stops the walk with No (an error also stops it); if
every command returns Yes, the verdict is Yes. -/
def handle_message (cmds : List BotCommand) (msg : Message) :
    List Nat × Except String Propagate :=
  match cmds with
  | [] => ([], .ok .Yes)
  | c :: rest =>
      match c.execute msg.content msg with
      | .error e => ([c.cid], .error e)
      | .ok .No => ([c.cid], .ok .No)
      | .ok .Yes =>
          let t := handle_message rest msg
          (c.cid :: t.1, t.2)

/-- MultiClientEvent from euphoxide-client/src/multi.rs, as matched by
Commands::handle_event: only the Packet variant's packet and state are
inspected (the client and connection handles it also carries feed the
context, which the dispatcher itself does not observe). -/
inductive MultiClientEvent where
  | Started
  | Connecting
  | Connected
  | Joined
  | Packet (packet : ParsedPacket) (state : State)
  | Disconnected
  | Stopped

/-- Commands::handle_event from command.rs: only a Packet event whose
payload is a send event and whose connection state is Joined reaches
handle_message; anything else short-circuits to Yes without invoking any
command. -/
def handle_event (cmds : List BotCommand) (event : MultiClientEvent) :
    List Nat × Except String Propagate :=
  match event with
  | .Packet packet state =>
      match packet.content with
      | .ok (.SendEvent msg) =>
          match state with
          | .Joined _ => handle_message cmds msg
          | _ => ([], .ok .Yes)
      | _ => ([], .ok .Yes)
  | _ => ([], .ok .Yes)

/-- The message a MultiClientEvent dispatches on, if any: some exactly for
a Packet event carrying a send event in the Joined state. -/
def dispatchedMessage : MultiClientEvent → Option Message
  | .Packet packet state =>
      match packet.content with
      | .ok (.SendEvent msg) =>
          match state with
          | .Joined _ => some msg
          | _ => none
      | _ => none
  | _ => none

/-- C8, part 1: if every command propagates, all commands run in insertion
order and the verdict is Yes. -/
theorem handle_message_all_yes (cmds : List BotCommand) (msg : Message)
    (h : ∀ c ∈ cmds, c.execute msg.content msg = .ok .Yes) :
    handle_message cmds msg = (cmds.map BotCommand.cid, .ok .Yes) := by
  induction cmds with
  | nil => rfl
  | cons c rest ih =>
      have hc := h c (List.mem_cons_self c rest)
      have hrest := ih (fun c' hc' => h c' (List.mem_cons_of_mem c hc'))
      simp [handle_message, hc, hrest]

/-- C8, part 2: the walk stops at the first command returning No: exactly
the commands before it (in insertion order) and itself run, and the
verdict is No. -/
theorem handle_message_stops_at_no (pre : List BotCommand) (c : BotCommand)
    (post : List BotCommand) (msg : Message)
    (hpre : ∀ c' ∈ pre, c'.execute msg.content msg = .ok .Yes)
    (hc : c.execute msg.content msg = .ok .No) :
    handle_message (pre ++ c :: post) msg = (pre.map BotCommand.cid ++ [c.cid], .ok .No) := by
  induction pre with
  | nil => simp [handle_message, hc]
  | cons p rest ih =>
      have hp := hpre p (List.mem_cons_self p rest)
      have hrest := ih (fun c' hc' => hpre c' (List.mem_cons_of_mem p hc'))
      simp [handle_message, hp, hrest]

/-- C8: the dispatcher invokes commands in insertion order and stops at the
first No (no later command runs, verdict No); if every command returns Yes
the verdict is Yes and all commands ran; and any event that is not a
Packet carrying a send event with connection state Joined yields Yes with
no command invoked, while a qualifying event dispatches its message. -/
theorem c8_dispatcher_order_and_gating :
    (∀ (cmds : List BotCommand) (msg : Message),
      (∀ c ∈ cmds, c.execute msg.content msg = .ok .Yes) →
        handle_message cmds msg = (cmds.map BotCommand.cid, .ok .Yes)) ∧
    (∀ (pre : List BotCommand) (c : BotCommand) (post : List BotCommand) (msg : Message),
      (∀ c' ∈ pre, c'.execute msg.content msg = .ok .Yes) →
      c.execute msg.content msg = .ok .No →
        handle_message (pre ++ c :: post) msg =
          (pre.map BotCommand.cid ++ [c.cid], .ok .No)) ∧
    (∀ (cmds : List BotCommand) (event : MultiClientEvent),
      dispatchedMessage event = none → handle_event cmds event = ([], .ok .Yes)) ∧
    (∀ (cmds : List BotCommand) (event : MultiClientEvent) (msg : Message),
      dispatchedMessage event = some msg → handle_event cmds event = handle_message cmds msg) := by
  refine ⟨handle_message_all_yes, handle_message_stops_at_no, ?_, ?_⟩
  · intro cmds event h
    match event with
    | .Started | .Connecting | .Connected | .Joined | .Disconnected | .Stopped => rfl
    | .Packet packet state =>
        simp only [dispatchedMessage] at h
        simp only [handle_event]
        match hc : packet.content with
        | .error e => rfl
        | .ok d =>
            match d with
            | .SendEvent msg =>
                rw [hc] at h
                match state with
                | .Joining _ => rfl
                | .Joined _ => simp at h
            | .BounceEvent _ | .DisconnectEvent | .EditMessageEvent | .HelloEvent _
            | .JoinEvent _ | .LoginEvent | .LogoutEvent | .NetworkEvent _ | .NickEvent _
            | .PartEvent _ | .PingEvent _ | .PmInitiateEvent | .SnapshotEvent _
            | .Auth _ | .AuthReply _ | .Ping _ | .PingReply _ | .Nick _ | .NickReply _
            | .Send _ | .SendReply _ | .Who | .WhoReply _ | .LoginReply _ | .LogoutReply
            | .Unimplemented _ => rfl
  · intro cmds event msg h
    match event with
    | .Started | .Connecting | .Connected | .Joined | .Disconnected | .Stopped =>
        simp [dispatchedMessage] at h
    | .Packet packet state =>
        simp only [dispatchedMessage] at h
        simp only [handle_event]
        match hc : packet.content with
        | .error e => rw [hc] at h; simp at h
        | .ok d =>
            rw [hc] at h
            match d with
            | .SendEvent m =>
                match state with
                | .Joining _ => simp at h
                | .Joined j => simp at h; rw [h]
            | .BounceEvent _ | .DisconnectEvent | .EditMessageEvent | .HelloEvent _
            | .JoinEvent _ | .LoginEvent | .LogoutEvent | .NetworkEvent _ | .NickEvent _
            | .PartEvent _ | .PingEvent _ | .PmInitiateEvent | .SnapshotEvent _
            | .Auth _ | .AuthReply _ | .Ping _ | .PingReply _ | .Nick _ | .NickReply _
            | .Send _ | .SendReply _ | .Who | .WhoReply _ | .LoginReply _ | .LogoutReply
            | .Unimplemented _ => simp at h

/-- A chat message with the given content, for dispatcher examples. -/
def mkMsg (content : String) : Message :=
  { id := { val := { val := 1 } },
    parent := none,
    previous_edit_id := none,
    time := { val := 0 },
    sender := mkSession ("u5") ("erin") ("S") ("E1") ("sid5"),
    content := content,
    encryption_key_id := none,
    edited := none,
    deleted := none,
    truncated := false }

/-- A command that always propagates. -/
def cmdYes : BotCommand := { cid := 0, execute := fun _ _ => .ok .Yes }

/-- A command that always halts the walk. -/
def cmdNo : BotCommand := { cid := 1, execute := fun _ _ => .ok .No }

/-- A joined state for dispatcher examples. -/
def dispatchJoined : Joined :=
  { session := mkSession ("bot:d") ("bot") ("S") ("E1") ("sid9"),
    account := none,
    listing := [] }

/-- A packet carrying a send event. -/
def sendPktC8 : ParsedPacket :=
  { id := none, ptype := .SendEvent,
    content := .ok (.SendEvent (mkMsg ("!ping"))), throttled := none }

/-- C8 witness: all four conjuncts of the dispatcher theorem applied at
concrete inputs. -/
theorem c8_dispatcher_witness :
    handle_message [cmdYes] (mkMsg ("!ping")) = ([0], .ok .Yes) ∧
    handle_message ([cmdYes] ++ cmdNo :: [cmdYes]) (mkMsg ("!ping")) = ([0, 1], .ok .No) ∧
    handle_event [cmdNo] .Started = ([], .ok .Yes) ∧
    handle_event [cmdNo] (.Packet sendPktC8 (.Joined dispatchJoined)) =
      handle_message [cmdNo] (mkMsg ("!ping")) := by
  refine ⟨?_, ?_, ?_, ?_⟩
  · exact c8_dispatcher_order_and_gating.1 [cmdYes] (mkMsg ("!ping")) (by
      intro c hc
      rw [List.mem_singleton] at hc
      subst hc
      rfl)
  · exact c8_dispatcher_order_and_gating.2.1 [cmdYes] cmdNo [cmdYes] (mkMsg ("!ping")) (by
      intro c hc
      rw [List.mem_singleton] at hc
      subst hc
      rfl) rfl
  · exact c8_dispatcher_order_and_gating.2.2.1 [cmdNo] .Started rfl
  · exact c8_dispatcher_order_and_gating.2.2.2 [cmdNo]
      (.Packet sendPktC8 (.Joined dispatchJoined)) (mkMsg ("!ping")) rfl

/-! ### api/types.rs: snowflake formatting and parsing -/

/-- char::from_digit(d, 36) for d < 36: decimal digits then lowercase
letters. -/
def digitChar36 (d : Nat) : Char :=
  if d < 10 then Char.ofNat (48 + d) else Char.ofNat (87 + d)

/-- char::to_digit(36), the digit recognizer used by u64::from_str_radix:
decimal digits, then letters of either case, valid when below the radix. -/
def charDigit36 (c : Char) : Option Nat :=
  if 48 ≤ c.toNat ∧ c.toNat ≤ 57 then some (c.toNat - 48)
  else if 97 ≤ c.toNat ∧ c.toNat ≤ 122 then
    if c.toNat - 87 < 36 then some (c.toNat - 87) else none
  else if 65 ≤ c.toNat ∧ c.toNat ≤ 90 then
    if c.toNat - 55 < 36 then some (c.toNat - 55) else none
  else none

/-- The error kinds of u64::from_str_radix that can arise here. -/
inductive ParseIntError where
  | Empty
  | InvalidDigit
  | PosOverflow
deriving DecidableEq, Repr

/-- u64::MAX. -/
def u64Max : Nat := 2 ^ 64 - 1

/-- The digit-accumulation loop of u64::from_str_radix in base 36, with the
checked arithmetic that fails on overflow past u64::MAX. -/
def radix36Loop : List Char → Nat → Except ParseIntError Nat
  | [], acc => .ok acc
  | c :: rest, acc =>
      match charDigit36 c with
      | none => .error (.InvalidDigit)
      | some d =>
          let acc' := acc * 36 + d
          if acc' ≤ u64Max then radix36Loop rest acc' else .error (.PosOverflow)

/-- u64::from_str_radix(s, 36): empty input is an error; a leading plus
sign is skipped (a lone sign is InvalidDigit); then the digits are
accumulated. -/
def u64FromStrRadix36 (s : List Char) : Except ParseIntError Nat :=
  match s with
  | [] => .error (.Empty)
  | c :: rest =>
      if c = '+' then
        if rest.isEmpty then .error (.InvalidDigit) else radix36Loop rest 0
      else radix36Loop (c :: rest) 0

/-- The Display loop from impl fmt::Display for Snowflake: thirteen rounds
of dividing by 36, inserting each digit character at the front. -/
def snowflakeFmtLoop : Nat → Nat → List Char → List Char
  | _, 0, acc => acc
  | n, k + 1, acc => snowflakeFmtLoop (n / 36) k (digitChar36 (n % 36) :: acc)

/-- The canonical 13-character base-36 rendering of a snowflake
(impl fmt::Display for Snowflake from api/types.rs), as a character list. -/
def Snowflake.toStr (s : Snowflake) : List Char :=
  snowflakeFmtLoop s.val 13 []

/-- ParseSnowflakeError from api/types.rs. -/
inductive ParseSnowflakeError where
  | InvalidLength (n : Nat)
  | ParseIntError (e : ParseIntError)
deriving DecidableEq, Repr

/-- str::len is a byte count; the UTF-8 length of a character list. -/
def utf8Len (s : List Char) : Nat := (s.map Char.utf8Size).sum

/-- impl FromStr for Snowflake from api/types.rs: any input whose byte
length is not 13 is rejected with InvalidLength; otherwise the base-36
digits are parsed as a u64. -/
def Snowflake.fromStr (s : List Char) : Except ParseSnowflakeError Snowflake :=
  if utf8Len s ≠ 13 then .error (.InvalidLength (utf8Len s))
  else
    match u64FromStrRadix36 s with
    | .error e => .error (.ParseIntError e)
    | .ok n => .ok { val := n }

/-- Decoding a formatted digit gives the digit back. -/
theorem charDigit36_digitChar36 : ∀ d : Nat, d < 36 → charDigit36 (digitChar36 d) = some d := by
  decide

/-- Formatted digits are one UTF-8 byte long. -/
theorem digitChar36_utf8Size : ∀ d : Nat, d < 36 → (digitChar36 d).utf8Size = 1 := by
  decide

/-- Formatted digits are not a plus sign. -/
theorem digitChar36_ne_plus : ∀ d : Nat, d < 36 → digitChar36 d ≠ '+' := by
  decide

/-- The byte length of the format loop output: one byte per round plus the
bytes of the seed accumulator. -/
theorem utf8Len_snowflakeFmtLoop :
    ∀ (k n : Nat) (acc : List Char), utf8Len (snowflakeFmtLoop n k acc) = k + utf8Len acc := by
  intro k
  induction k with
  | zero => intro n acc; simp [snowflakeFmtLoop]
  | succ k ih =>
      intro n acc
      rw [snowflakeFmtLoop, ih]
      have h1 : (digitChar36 (n % 36)).utf8Size = 1 :=
        digitChar36_utf8Size (n % 36) (Nat.mod_lt n (by norm_num))
      simp [utf8Len, h1]
      omega

/-- Parsing the k digits laid down by the format loop multiplies the
accumulator by 36 ^ k and adds n mod 36 ^ k, provided the result does not
overflow (the intermediate checked additions then cannot overflow either). -/
theorem radix36Loop_snowflakeFmtLoop :
    ∀ (k n : Nat) (acc : List Char) (accv : Nat),
      accv * 36 ^ k + n % 36 ^ k ≤ u64Max →
      radix36Loop (snowflakeFmtLoop n k acc) accv =
        radix36Loop acc (accv * 36 ^ k + n % 36 ^ k) := by
  intro k
  induction k with
  | zero =>
      intro n acc accv _
      simp [snowflakeFmtLoop, Nat.mod_one]
  | succ k ih =>
      intro n acc accv h
      have hmod : n % 36 ^ (k + 1) = 36 ^ k * 36 * accv * 0 + (n % 36) + 36 * (n / 36 % 36 ^ k) := by
        rw [pow_succ]
        rw [mul_comm (36 ^ k) 36]
        rw [Nat.mod_mul]
        ring
      have hmod' : n % 36 ^ (k + 1) = n % 36 + 36 * (n / 36 % 36 ^ k) := by
        rw [hmod]; ring
      have hstep : (accv * 36 ^ k + n / 36 % 36 ^ k) * 36 + n % 36 =
          accv * 36 ^ (k + 1) + n % 36 ^ (k + 1) := by
        rw [hmod', pow_succ]; ring
      have hmid : accv * 36 ^ k + n / 36 % 36 ^ k ≤ u64Max := by
        have hle : accv * 36 ^ k + n / 36 % 36 ^ k ≤
            (accv * 36 ^ k + n / 36 % 36 ^ k) * 36 + n % 36 := by
          calc accv * 36 ^ k + n / 36 % 36 ^ k
              ≤ (accv * 36 ^ k + n / 36 % 36 ^ k) * 36 := by
                exact Nat.le_mul_of_pos_right _ (by norm_num)
            _ ≤ (accv * 36 ^ k + n / 36 % 36 ^ k) * 36 + n % 36 := Nat.le_add_right _ _
        exact le_trans (le_trans hle (le_of_eq hstep)) h
      rw [snowflakeFmtLoop]
      rw [ih (n / 36) (digitChar36 (n % 36) :: acc) accv hmid]
      rw [radix36Loop]
      rw [charDigit36_digitChar36 (n % 36) (Nat.mod_lt n (by norm_num))]
      simp only []
      rw [if_pos (le_of_eq_of_le hstep h)]
      rw [hstep]

/-- The format loop's output for at least one round starts with a digit
character. -/
theorem snowflakeFmtLoop_head :
    ∀ (k n : Nat) (acc : List Char),
      ∃ d tl, d < 36 ∧ snowflakeFmtLoop n (k + 1) acc = digitChar36 d :: tl := by
  intro k
  induction k with
  | zero =>
      intro n acc
      exact ⟨n % 36, acc, Nat.mod_lt n (by norm_num), rfl⟩
  | succ k ih =>
      intro n acc
      obtain ⟨d, tl, hd, htl⟩ := ih (n / 36) (digitChar36 (n % 36) :: acc)
      exact ⟨d, tl, hd, htl⟩

/-- 2 ^ 64 fits within thirteen base-36 digits. -/
theorem u64_lt_36_pow_13 : 2 ^ 64 < 36 ^ 13 := by norm_num

/-- Parsing the canonical rendering of n < 2 ^ 64 recovers n. -/
theorem fromStr_toStr (n : Nat) (hn : n < 2 ^ 64) :
    Snowflake.fromStr (Snowflake.toStr { val := n }) = .ok { val := n } := by
  have hlen : utf8Len (Snowflake.toStr { val := n }) = 13 := by
    rw [Snowflake.toStr, utf8Len_snowflakeFmtLoop]
    simp [utf8Len]
  have hmod : n % 36 ^ 13 = n := Nat.mod_eq_of_lt (lt_trans hn u64_lt_36_pow_13)
  have hbound : 0 * 36 ^ 13 + n % 36 ^ 13 ≤ u64Max := by
    rw [hmod, u64Max]
    omega
  have hparse : radix36Loop (Snowflake.toStr { val := n }) 0 = .ok n := by
    rw [Snowflake.toStr, radix36Loop_snowflakeFmtLoop 13 n [] 0 hbound]
    rw [radix36Loop]
    rw [hmod]
    simp
  obtain ⟨d, tl, hd, htl⟩ := snowflakeFmtLoop_head 12 n []
  have hrad : u64FromStrRadix36 (Snowflake.toStr { val := n }) = .ok n := by
    rw [Snowflake.toStr] at hparse ⊢
    rw [htl] at hparse ⊢
    rw [u64FromStrRadix36]
    rw [if_neg (digitChar36_ne_plus d hd)]
    exact hparse
  rw [Snowflake.fromStr, if_neg (by rw [hlen]; omega), hrad]

/-- C9: snowflake parsing and formatting round-trip: parsing the canonical
13-character base-36 rendering of any u64 and re-formatting yields the same
string; and parsing any string whose (byte) length is not 13 fails with
InvalidLength carrying that length. -/
theorem c9_snowflake_round_trip :
    (∀ n : Nat, n < 2 ^ 64 →
      (Snowflake.fromStr (Snowflake.toStr { val := n })).map Snowflake.toStr =
        Except.ok (Snowflake.toStr { val := n })) ∧
    (∀ s : List Char, utf8Len s ≠ 13 →
      Snowflake.fromStr s = .error (.InvalidLength (utf8Len s))) := by
  constructor
  · intro n hn
    rw [fromStr_toStr n hn]
    rfl
  · intro s hs
    rw [Snowflake.fromStr, if_pos hs]

/-- C9 witness: the round trip evaluated at 12345 and the length check at a
two-character string. -/
theorem c9_snowflake_round_trip_witness :
    (Snowflake.fromStr (Snowflake.toStr { val := 12345 })).map Snowflake.toStr =
      Except.ok (Snowflake.toStr { val := 12345 }) ∧
    Snowflake.fromStr [ 'a', 'b' ] = .error (.InvalidLength 2) :=
  ⟨c9_snowflake_round_trip.1 12345 (by norm_num),
   c9_snowflake_round_trip.2 [ 'a', 'b' ] (by decide)⟩

/-! ### euphoxide-client/src/single.rs: the client supervisor

The inner ClientConn is externalized: each connect attempt either fails or
succeeds, and a successful connection yields a scripted sequence of loop
items (packets, a clean close, recv errors, handle commands). Event
payloads (ids, connection handles, state snapshots) play no role in the
event grammar and are dropped. Outbound sends (Auth, Nick) are modelled as
succeeding. -/

/-- Error from single.rs (the supervisor's termination classification).
The Euphoxide payload is reduced to whether it is an HTTP 404 response
from the websocket upgrade, the only property is_fatal inspects. -/
inductive ClientError where
  | Stopped
  | NoReferences
  | AuthRequired
  | InvalidPassword
  | OutOfJoinAttempts
  | Euphoxide (is404 : Bool)
deriving DecidableEq, Repr

/-- Error::is_fatal from single.rs. -/
def ClientError.is_fatal : ClientError → Bool
  | .Stopped => true
  | .NoReferences => true
  | .AuthRequired => true
  | .InvalidPassword => true
  | .OutOfJoinAttempts => true
  | .Euphoxide is404 => is404

/-- ClientEvent from single.rs, reduced to its tags. -/
inductive CEv where
  | started
  | connecting
  | connected
  | joined
  | packet
  | disconnected
  | stopped
deriving DecidableEq, Repr

/-- The configuration fields the supervisor logic reads
(ClientConfig/ServerConfig from euphoxide-client/src/config.rs). -/
structure CConfig where
  join_attempts : Nat
  password : Option String
  username : Option String
  force_username : Bool
deriving DecidableEq, Repr

/-- The mutable fields of ClientTask. -/
structure TaskState where
  attempts : Nat
  never_joined : Bool
deriving DecidableEq, Repr

/-- The ClientTask as spawned by Client::new from single.rs: attempts
starts at 0 and never_joined is initialized to false. -/
def TaskState.initial : TaskState := { attempts := 0, never_joined := false }

/-- What the select inside the run_once loop yields in one iteration. -/
inductive LoopItem where
  | recvPacket (p : ParsedPacket)
  | recvClosed
  | recvError (is404 : Bool)
  | cmdGetConn
  | cmdStop
  | cmdClosed
deriving DecidableEq, Repr

/-- One connect attempt as offered by the environment: either the socket
open fails (fatal exactly when it is an HTTP 404), or it succeeds and the
connection then yields the given loop items. -/
inductive Attempt where
  | fail (is404 : Bool)
  | ok (items : List LoopItem)
deriving DecidableEq, Repr

/-- ClientTask::on_packet from single.rs: the Packet event is published
first; then packet.into_data()? fails with a (non-404) euphoxide error
when the content is a server error string; a bounce offering passcode auth
sends an Auth command when a password is configured and fails with
AuthRequired otherwise; a failed auth reply fails with InvalidPassword; a
snapshot optionally sends Nick (no observable effect here, as sends are
modelled as succeeding), clears never_joined and publishes Joined. -/
def clientOnPacket (cfg : CConfig) (st : TaskState) (p : ParsedPacket) :
    TaskState × List CEv × Option ClientError :=
  match p.content with
  | .error _ => (st, [.packet], some (.Euphoxide false))
  | .ok d =>
      match d with
      | .BounceEvent b =>
          match b.auth_options with
          | some opts =>
              if AuthOption.Passcode ∈ opts then
                if cfg.password.isSome then (st, [.packet], none)
                else (st, [.packet], some (.AuthRequired))
              else (st, [.packet], none)
          | none => (st, [.packet], none)
      | .AuthReply ev =>
          if ev.success then (st, [.packet], none)
          else (st, [.packet], some (.InvalidPassword))
      | .SnapshotEvent _ =>
          ({ st with never_joined := false }, [.packet, .joined], none)
      | _ => (st, [.packet], none)

/-- How the inner loop of run_once ended. -/
inductive LoopRes where
  | brokeOk
  | brokeNoRefs
  | earlyErr (e : ClientError)
  | pending
deriving DecidableEq, Repr

/-- The inner loop of ClientTask::run_once from single.rs: a received
packet is handled by on_packet (its error propagating out of run_once via
the question mark operator), a clean close breaks with Ok, a closed
command channel breaks with NoReferences, a recv error and a Stop command
propagate out via the question mark operator, and GetConn is answered and
the loop continues. pending means the environment offered no more items
(the connection is still being serviced). -/
def runLoop (cfg : CConfig) (st : TaskState) :
    List LoopItem → TaskState × List CEv × LoopRes
  | [] => (st, [], .pending)
  | item :: rest =>
      match item with
      | .recvClosed => (st, [], .brokeOk)
      | .cmdClosed => (st, [], .brokeNoRefs)
      | .recvError is404 => (st, [], .earlyErr (.Euphoxide is404))
      | .cmdGetConn => runLoop cfg st rest
      | .cmdStop => (st, [], .earlyErr (.Stopped))
      | .recvPacket p =>
          let r := clientOnPacket cfg st p
          match r.2.2 with
          | some e => (r.1, r.2.1, .earlyErr e)
          | none =>
              let rr := runLoop cfg r.1 rest
              (rr.1, r.2.1 ++ rr.2.1, rr.2.2)

/-- How one run_once call ended. -/
inductive RunRes where
  | ok
  | err (e : ClientError)
  | pending
deriving DecidableEq, Repr

/-- ClientTask::run_once from single.rs: increment the attempt counter and
fail with OutOfJoinAttempts when never_joined and over budget (before any
event is sent); publish Connecting; on a failed socket open sleep and
propagate the error — no Disconnected is published on this path; on
success publish Connected and run the loop. Disconnected is published only
when the loop broke out of its match (clean close or NoReferences); an
error propagated by the question mark operator skips the Disconnected
send at the bottom of run_once. -/
def run_once (cfg : CConfig) (st : TaskState) (a : Attempt) :
    TaskState × List CEv × RunRes :=
  let st := { st with attempts := st.attempts + 1 }
  if st.never_joined = true ∧ st.attempts > cfg.join_attempts then
    (st, [], .err (.OutOfJoinAttempts))
  else
    match a with
    | .fail is404 => (st, [.connecting], .err (.Euphoxide is404))
    | .ok items =>
        let r := runLoop cfg st items
        match r.2.2 with
        | .brokeOk =>
            (r.1, .connecting :: .connected :: r.2.1 ++ [.disconnected], .ok)
        | .brokeNoRefs =>
            (r.1, .connecting :: .connected :: r.2.1 ++ [.disconnected],
              .err (.NoReferences))
        | .earlyErr e => (r.1, .connecting :: .connected :: r.2.1, .err e)
        | .pending => (r.1, .connecting :: .connected :: r.2.1, .pending)

/-- The run loop of ClientTask::run from single.rs, processing the scripted
attempts: a fatal error breaks the loop (its events and the error are
returned), a non-fatal error and an Ok outcome continue with the next
attempt, and an exhausted script leaves the task still running. -/
def runFrom (cfg : CConfig) : TaskState → List Attempt → List CEv × Option ClientError
  | _, [] => ([], none)
  | st, a :: rest =>
      let r := run_once cfg st a
      match r.2.2 with
      | .ok =>
          let rr := runFrom cfg r.1 rest
          (r.2.1 ++ rr.1, rr.2)
      | .pending => (r.2.1, none)
      | .err e =>
          if e.is_fatal then (r.2.1, some e)
          else
            let rr := runFrom cfg r.1 rest
            (r.2.1 ++ rr.1, rr.2)

/-- ClientTask::run from single.rs: Started, then run_once until a fatal
error, then Stopped. The second component is the fatal error the task
stopped with, if it stopped within the script. -/
def run (cfg : CConfig) (script : List Attempt) : List CEv × Option ClientError :=
  let r := runFrom cfg TaskState.initial script
  (.started :: r.1 ++ (match r.2 with | some _ => [.stopped] | none => []), r.2)

/-! ### The event grammar -/

/-- The states of the recognizer for the event grammar the supervisor
actually emits. -/
inductive TraceState where
  | expectStart
  | between
  | afterConnecting
  | inConn
  | afterPacket
  | done
deriving DecidableEq, Repr

/-- One recognizer step for the grammar
Started (Connecting (Connected (Packet Joined?)* Disconnected?)?)* Stopped?
with Stopped final; none rejects. -/
def traceStep : TraceState → CEv → Option TraceState
  | .expectStart, .started => some .between
  | .between, .connecting => some .afterConnecting
  | .between, .stopped => some .done
  | .afterConnecting, .connecting => some .afterConnecting
  | .afterConnecting, .connected => some .inConn
  | .afterConnecting, .stopped => some .done
  | .inConn, .packet => some .afterPacket
  | .inConn, .disconnected => some .between
  | .inConn, .connecting => some .afterConnecting
  | .inConn, .stopped => some .done
  | .afterPacket, .joined => some .inConn
  | .afterPacket, .packet => some .afterPacket
  | .afterPacket, .disconnected => some .between
  | .afterPacket, .connecting => some .afterConnecting
  | .afterPacket, .stopped => some .done
  | _, _ => none

/-- Run the recognizer over a list of events. -/
def traceRun (q : TraceState) : List CEv → Option TraceState
  | [] => some q
  | e :: rest =>
      match traceStep q e with
      | none => none
      | some q' => traceRun q' rest

/-- Whether an event list conforms to the supervisor's grammar. -/
def traceOk (evs : List CEv) : Bool := (traceRun .expectStart evs).isSome

/-- The states of the recognizer for the event grammar the spec claims. -/
inductive SpecTraceState where
  | expectStart
  | between
  | afterConnecting
  | inConnPre
  | inConnPost
  | done
deriving DecidableEq, Repr

/-- One recognizer step for the grammar claimed in the spec (section 4.2):
(Started) (Connecting (Connected Packet* (Joined Packet*)?)? Disconnected)* Stopped.
This recognizer is written from the spec's words, not from the code, for
comparison with the behaviour of run; note that here every Connecting
requires a matching Disconnected before the next Connecting or Stopped. -/
def specTraceStep : SpecTraceState → CEv → Option SpecTraceState
  | .expectStart, .started => some .between
  | .between, .connecting => some .afterConnecting
  | .between, .stopped => some .done
  | .afterConnecting, .connected => some .inConnPre
  | .afterConnecting, .disconnected => some .between
  | .inConnPre, .packet => some .inConnPre
  | .inConnPre, .joined => some .inConnPost
  | .inConnPre, .disconnected => some .between
  | .inConnPost, .packet => some .inConnPost
  | .inConnPost, .disconnected => some .between
  | _, _ => none

/-- Run the spec recognizer over a list of events. -/
def specTraceRun (q : SpecTraceState) : List CEv → Option SpecTraceState
  | [] => some q
  | e :: rest =>
      match specTraceStep q e with
      | none => none
      | some q' => specTraceRun q' rest

/-- A terminated client event sequence matches the spec grammar iff the
spec recognizer accepts it ending in its final state. -/
def specTraceOk (evs : List CEv) : Bool :=
  specTraceRun .expectStart evs == some .done

/-! ### Lemmas about the supervisor's traces -/

/-- The two possible outcomes of on_packet: the task state is unchanged or
never_joined is cleared, and the published events are Packet alone or
Packet followed by Joined. -/
theorem clientOnPacket_shape (cfg : CConfig) (st : TaskState) (p : ParsedPacket) :
    ((clientOnPacket cfg st p).1 = st ∨
      (clientOnPacket cfg st p).1 = { st with never_joined := false }) ∧
    ((clientOnPacket cfg st p).2.1 = [CEv.packet] ∨
      (clientOnPacket cfg st p).2.1 = [CEv.packet, CEv.joined]) := by
  rcases p with ⟨pid, pt, content, th⟩
  cases content with
  | error e => exact ⟨Or.inl rfl, Or.inl rfl⟩
  | ok d =>
      cases d with
      | BounceEvent b =>
          rcases b with ⟨r, opts⟩
          cases opts with
          | none => exact ⟨Or.inl rfl, Or.inl rfl⟩
          | some l =>
              by_cases h : AuthOption.Passcode ∈ l
              · by_cases h2 : cfg.password.isSome <;>
                  simp [clientOnPacket, h, h2]
              · simp [clientOnPacket, h]
      | AuthReply ev =>
          by_cases h : ev.success <;> simp [clientOnPacket, h]
      | SnapshotEvent ev => exact ⟨Or.inr rfl, Or.inr rfl⟩
      | DisconnectEvent => exact ⟨Or.inl rfl, Or.inl rfl⟩
      | EditMessageEvent => exact ⟨Or.inl rfl, Or.inl rfl⟩
      | HelloEvent p => exact ⟨Or.inl rfl, Or.inl rfl⟩
      | JoinEvent p => exact ⟨Or.inl rfl, Or.inl rfl⟩
      | LoginEvent => exact ⟨Or.inl rfl, Or.inl rfl⟩
      | LogoutEvent => exact ⟨Or.inl rfl, Or.inl rfl⟩
      | NetworkEvent p => exact ⟨Or.inl rfl, Or.inl rfl⟩
      | NickEvent p => exact ⟨Or.inl rfl, Or.inl rfl⟩
      | PartEvent p => exact ⟨Or.inl rfl, Or.inl rfl⟩
      | PingEvent p => exact ⟨Or.inl rfl, Or.inl rfl⟩
      | PmInitiateEvent => exact ⟨Or.inl rfl, Or.inl rfl⟩
      | SendEvent p => exact ⟨Or.inl rfl, Or.inl rfl⟩
      | Auth p => exact ⟨Or.inl rfl, Or.inl rfl⟩
      | Ping p => exact ⟨Or.inl rfl, Or.inl rfl⟩
      | PingReply p => exact ⟨Or.inl rfl, Or.inl rfl⟩
      | Nick p => exact ⟨Or.inl rfl, Or.inl rfl⟩
      | NickReply p => exact ⟨Or.inl rfl, Or.inl rfl⟩
      | Send p => exact ⟨Or.inl rfl, Or.inl rfl⟩
      | SendReply p => exact ⟨Or.inl rfl, Or.inl rfl⟩
      | Who => exact ⟨Or.inl rfl, Or.inl rfl⟩
      | WhoReply p => exact ⟨Or.inl rfl, Or.inl rfl⟩
      | LoginReply p => exact ⟨Or.inl rfl, Or.inl rfl⟩
      | LogoutReply => exact ⟨Or.inl rfl, Or.inl rfl⟩
      | Unimplemented pt => exact ⟨Or.inl rfl, Or.inl rfl⟩

/-- The recognizer distributes over appending. -/
theorem traceRun_append (q : TraceState) (xs ys : List CEv) :
    traceRun q (xs ++ ys) =
      match traceRun q xs with
      | none => none
      | some q' => traceRun q' ys := by
  induction xs generalizing q with
  | nil => rfl
  | cons e xs ih =>
      simp only [List.cons_append, traceRun]
      cases traceStep q e with
      | none => rfl
      | some q' => exact ih q'

/-- The recognizer states the supervisor can be left in between events. -/
def TraceState.live (q : TraceState) : Prop :=
  q = .between ∨ q = .afterConnecting ∨ q = .inConn ∨ q = .afterPacket

/-- Stepping an in-connection recognizer state over the events of one
on_packet call lands in an in-connection state. -/
theorem traceRun_packetEvs (q : TraceState) (evs : List CEv)
    (hq : q = .inConn ∨ q = .afterPacket)
    (hevs : evs = [CEv.packet] ∨ evs = [CEv.packet, CEv.joined]) :
    ∃ q', traceRun q evs = some q' ∧ (q' = .inConn ∨ q' = .afterPacket) := by
  rcases hq with rfl | rfl <;> rcases hevs with rfl | rfl <;>
    first
      | exact ⟨.afterPacket, rfl, Or.inr rfl⟩
      | exact ⟨.inConn, rfl, Or.inl rfl⟩

/-- Stepping an in-connection recognizer state over the inner loop's events
lands in an in-connection state. -/
theorem runLoop_trace (cfg : CConfig) :
    ∀ (items : List LoopItem) (st : TaskState) (q : TraceState),
      (q = .inConn ∨ q = .afterPacket) →
      ∃ q', traceRun q (runLoop cfg st items).2.1 = some q' ∧
        (q' = .inConn ∨ q' = .afterPacket) := by
  intro items
  induction items with
  | nil => intro st q hq; exact ⟨q, rfl, hq⟩
  | cons item rest ih =>
      intro st q hq
      cases item with
      | recvClosed => exact ⟨q, rfl, hq⟩
      | cmdClosed => exact ⟨q, rfl, hq⟩
      | recvError is404 => exact ⟨q, rfl, hq⟩
      | cmdStop => exact ⟨q, rfl, hq⟩
      | cmdGetConn => exact ih st q hq
      | recvPacket p =>
          have hshape := (clientOnPacket_shape cfg st p).2
          simp only [runLoop]
          cases hres : (clientOnPacket cfg st p).2.2 with
          | some e =>
              simp only [hres]
              exact traceRun_packetEvs q _ hq hshape
          | none =>
              simp only [hres]
              obtain ⟨q2, hq2, hlive2⟩ := traceRun_packetEvs q _ hq hshape
              obtain ⟨q', hq', hlive'⟩ := ih (clientOnPacket cfg st p).1 q2 hlive2
              refine ⟨q', ?_, hlive'⟩
              rw [traceRun_append, hq2]
              exact hq'

/-- Stepping a live recognizer state over one run_once call's events lands
in a live state. -/
theorem run_once_trace (cfg : CConfig) (st : TaskState) (a : Attempt) (q : TraceState)
    (hq : q.live) :
    ∃ q', traceRun q (run_once cfg st a).2.1 = some q' ∧ q'.live := by
  have hpre : ∀ X : List CEv,
      traceRun q (CEv.connecting :: CEv.connected :: X) = traceRun TraceState.inConn X := by
    rcases hq with rfl | rfl | rfl | rfl <;> intro X <;> rfl
  unfold run_once
  by_cases hguard : ({ st with attempts := st.attempts + 1 } : TaskState).never_joined = true ∧
      st.attempts + 1 > cfg.join_attempts
  · rw [if_pos hguard]
    exact ⟨q, rfl, hq⟩
  · rw [if_neg hguard]
    cases a with
    | fail is404 =>
        refine ⟨.afterConnecting, ?_, Or.inr (Or.inl rfl)⟩
        rcases hq with rfl | rfl | rfl | rfl <;> rfl
    | ok items =>
        obtain ⟨q2, hq2, hlive2⟩ :=
          runLoop_trace cfg items { st with attempts := st.attempts + 1 } .inConn (Or.inl rfl)
        have hdisc : traceRun q2 [CEv.disconnected] = some TraceState.between := by
          rcases hlive2 with rfl | rfl <;> rfl
        cases hres : (runLoop cfg { st with attempts := st.attempts + 1 } items).2.2 with
        | brokeOk =>
            simp only [hres]
            refine ⟨.between, ?_, Or.inl rfl⟩
            rw [show (CEv.connecting :: CEv.connected ::
                  (runLoop cfg { st with attempts := st.attempts + 1 } items).2.1 ++
                    [CEv.disconnected]) =
                CEv.connecting :: CEv.connected ::
                  ((runLoop cfg { st with attempts := st.attempts + 1 } items).2.1 ++
                    [CEv.disconnected]) from rfl]
            rw [hpre, traceRun_append, hq2]
            exact hdisc
        | brokeNoRefs =>
            simp only [hres]
            refine ⟨.between, ?_, Or.inl rfl⟩
            rw [show (CEv.connecting :: CEv.connected ::
                  (runLoop cfg { st with attempts := st.attempts + 1 } items).2.1 ++
                    [CEv.disconnected]) =
                CEv.connecting :: CEv.connected ::
                  ((runLoop cfg { st with attempts := st.attempts + 1 } items).2.1 ++
                    [CEv.disconnected]) from rfl]
            rw [hpre, traceRun_append, hq2]
            exact hdisc
        | earlyErr e =>
            simp only [hres]
            refine ⟨q2, ?_, Or.inr (Or.inr hlive2)⟩
            rw [hpre]
            exact hq2
        | pending =>
            simp only [hres]
            refine ⟨q2, ?_, Or.inr (Or.inr hlive2)⟩
            rw [hpre]
            exact hq2

/-- Stepping a live recognizer state over the run loop's events lands in a
live state. -/
theorem runFrom_trace (cfg : CConfig) :
    ∀ (script : List Attempt) (st : TaskState) (q : TraceState), q.live →
      ∃ q', traceRun q (runFrom cfg st script).1 = some q' ∧ q'.live := by
  intro script
  induction script with
  | nil => intro st q hq; exact ⟨q, rfl, hq⟩
  | cons a rest ih =>
      intro st q hq
      obtain ⟨q2, hq2, hlive2⟩ := run_once_trace cfg st a q hq
      simp only [runFrom]
      cases hres : (run_once cfg st a).2.2 with
      | ok =>
          simp only [hres]
          obtain ⟨q', hq', hlive'⟩ := ih (run_once cfg st a).1 q2 hlive2
          refine ⟨q', ?_, hlive'⟩
          rw [traceRun_append, hq2]
          exact hq'
      | pending =>
          simp only [hres]
          exact ⟨q2, hq2, hlive2⟩
      | err e =>
          simp only [hres]
          by_cases hf : e.is_fatal = true
          · rw [if_pos hf]
            exact ⟨q2, hq2, hlive2⟩
          · rw [if_neg hf]
            obtain ⟨q', hq', hlive'⟩ := ih (run_once cfg st a).1 q2 hlive2
            refine ⟨q', ?_, hlive'⟩
            rw [traceRun_append, hq2]
            exact hq'

/-- on_packet never publishes Stopped. -/
theorem clientOnPacket_no_stop (cfg : CConfig) (st : TaskState) (p : ParsedPacket) :
    CEv.stopped ∉ (clientOnPacket cfg st p).2.1 := by
  rcases (clientOnPacket_shape cfg st p).2 with h | h <;> rw [h] <;> simp

/-- The inner loop never publishes Stopped. -/
theorem runLoop_no_stop (cfg : CConfig) :
    ∀ (items : List LoopItem) (st : TaskState),
      CEv.stopped ∉ (runLoop cfg st items).2.1 := by
  intro items
  induction items with
  | nil => intro st; simp [runLoop]
  | cons item rest ih =>
      intro st
      cases item with
      | recvClosed => simp [runLoop]
      | cmdClosed => simp [runLoop]
      | recvError is404 => simp [runLoop]
      | cmdStop => simp [runLoop]
      | cmdGetConn => exact ih st
      | recvPacket p =>
          simp only [runLoop]
          cases hres : (clientOnPacket cfg st p).2.2 with
          | some e =>
              simp only [hres]
              exact clientOnPacket_no_stop cfg st p
          | none =>
              simp only [hres, List.mem_append]
              rintro (h | h)
              · exact clientOnPacket_no_stop cfg st p h
              · exact ih (clientOnPacket cfg st p).1 h

/-- run_once never publishes Stopped. -/
theorem run_once_no_stop (cfg : CConfig) (st : TaskState) (a : Attempt) :
    CEv.stopped ∉ (run_once cfg st a).2.1 := by
  unfold run_once
  by_cases hguard : ({ st with attempts := st.attempts + 1 } : TaskState).never_joined = true ∧
      st.attempts + 1 > cfg.join_attempts
  · rw [if_pos hguard]; simp
  · rw [if_neg hguard]
    cases a with
    | fail is404 => simp
    | ok items =>
        have hloop := runLoop_no_stop cfg items { st with attempts := st.attempts + 1 }
        cases hres : (runLoop cfg { st with attempts := st.attempts + 1 } items).2.2 with
        | brokeOk => simp only [hres]; simp_all
        | brokeNoRefs => simp only [hres]; simp_all
        | earlyErr e => simp only [hres]; simp_all
        | pending => simp only [hres]; simp_all

/-- The run loop never publishes Stopped within its body. -/
theorem runFrom_no_stop (cfg : CConfig) :
    ∀ (script : List Attempt) (st : TaskState),
      CEv.stopped ∉ (runFrom cfg st script).1 := by
  intro script
  induction script with
  | nil => intro st; simp [runFrom]
  | cons a rest ih =>
      intro st
      have honce := run_once_no_stop cfg st a
      simp only [runFrom]
      cases hres : (run_once cfg st a).2.2 with
      | ok =>
          simp only [hres, List.mem_append]
          rintro (h | h)
          · exact honce h
          · exact ih (run_once cfg st a).1 h
      | pending => simp only [hres]; exact honce
      | err e =>
          simp only [hres]
          by_cases hf : e.is_fatal = true
          · rw [if_pos hf]; exact honce
          · rw [if_neg hf]
            simp only [List.mem_append]
            rintro (h | h)
            · exact honce h
            · exact ih (run_once cfg st a).1 h

/-- The last element of a list extended by a singleton. -/
theorem getLast?_append_singleton {α : Type} (l : List α) (a : α) :
    (l ++ [a]).getLast? = some a := by
  induction l with
  | nil => rfl
  | cons x xs ih =>
      cases xs with
      | nil => rfl
      | cons z zs =>
          rw [List.cons_append, List.cons_append, List.getLast?_cons_cons]
          exact ih

/-- The errors on_packet can fail with: never OutOfJoinAttempts. -/
theorem clientOnPacket_err (cfg : CConfig) (st : TaskState) (p : ParsedPacket) :
    (clientOnPacket cfg st p).2.2 ≠ some ClientError.OutOfJoinAttempts := by
  rcases p with ⟨pid, pt, content, th⟩
  cases content with
  | error e => simp [clientOnPacket]
  | ok d =>
      cases d with
      | BounceEvent b =>
          rcases b with ⟨r, opts⟩
          cases opts with
          | none => simp [clientOnPacket]
          | some l =>
              by_cases hmem : AuthOption.Passcode ∈ l
              · by_cases h2 : cfg.password.isSome <;> simp [clientOnPacket, hmem, h2]
              · simp [clientOnPacket, hmem]
      | AuthReply ev => by_cases hs : ev.success <;> simp [clientOnPacket, hs]
      | SnapshotEvent ev => simp [clientOnPacket]
      | DisconnectEvent => simp [clientOnPacket]
      | EditMessageEvent => simp [clientOnPacket]
      | HelloEvent p => simp [clientOnPacket]
      | JoinEvent p => simp [clientOnPacket]
      | LoginEvent => simp [clientOnPacket]
      | LogoutEvent => simp [clientOnPacket]
      | NetworkEvent p => simp [clientOnPacket]
      | NickEvent p => simp [clientOnPacket]
      | PartEvent p => simp [clientOnPacket]
      | PingEvent p => simp [clientOnPacket]
      | PmInitiateEvent => simp [clientOnPacket]
      | SendEvent p => simp [clientOnPacket]
      | Auth p => simp [clientOnPacket]
      | Ping p => simp [clientOnPacket]
      | PingReply p => simp [clientOnPacket]
      | Nick p => simp [clientOnPacket]
      | NickReply p => simp [clientOnPacket]
      | Send p => simp [clientOnPacket]
      | SendReply p => simp [clientOnPacket]
      | Who => simp [clientOnPacket]
      | WhoReply p => simp [clientOnPacket]
      | LoginReply p => simp [clientOnPacket]
      | LogoutReply => simp [clientOnPacket]
      | Unimplemented pt => simp [clientOnPacket]

/-- on_packet preserves a cleared never_joined flag. -/
theorem clientOnPacket_nj (cfg : CConfig) (st : TaskState) (p : ParsedPacket)
    (h : st.never_joined = false) :
    (clientOnPacket cfg st p).1.never_joined = false := by
  rcases (clientOnPacket_shape cfg st p).1 with h1 | h1 <;> simp [h1, h]

/-- The inner loop preserves a cleared never_joined flag. -/
theorem runLoop_nj (cfg : CConfig) :
    ∀ (items : List LoopItem) (st : TaskState), st.never_joined = false →
      (runLoop cfg st items).1.never_joined = false := by
  intro items
  induction items with
  | nil => intro st h; exact h
  | cons item rest ih =>
      intro st h
      cases item with
      | recvClosed => exact h
      | cmdClosed => exact h
      | recvError is404 => exact h
      | cmdStop => exact h
      | cmdGetConn => exact ih st h
      | recvPacket p =>
          have hcp := clientOnPacket_nj cfg st p h
          simp only [runLoop]
          cases hres : (clientOnPacket cfg st p).2.2 with
          | some e => simp only [hres]; exact hcp
          | none => simp only [hres]; exact ih _ hcp

/-- The inner loop never fails with OutOfJoinAttempts. -/
theorem runLoop_no_ooja (cfg : CConfig) :
    ∀ (items : List LoopItem) (st : TaskState),
      (runLoop cfg st items).2.2 ≠ .earlyErr (.OutOfJoinAttempts) := by
  intro items
  induction items with
  | nil => intro st; simp [runLoop]
  | cons item rest ih =>
      intro st
      cases item with
      | recvClosed => simp [runLoop]
      | cmdClosed => simp [runLoop]
      | recvError is404 => simp [runLoop]
      | cmdStop => simp [runLoop]
      | cmdGetConn => exact ih st
      | recvPacket p =>
          simp only [runLoop]
          cases hres : (clientOnPacket cfg st p).2.2 with
          | some e =>
              simp only [hres]
              have := clientOnPacket_err cfg st p
              rw [hres] at this
              simp only [ne_eq, LoopRes.earlyErr.injEq]
              intro hh
              exact this (by rw [hh])
          | none => simp only [hres]; exact ih _

/-- run_once preserves a cleared never_joined flag and then cannot fail
with OutOfJoinAttempts. -/
theorem run_once_nj (cfg : CConfig) (st : TaskState) (a : Attempt)
    (h : st.never_joined = false) :
    (run_once cfg st a).1.never_joined = false ∧
    (run_once cfg st a).2.2 ≠ .err (.OutOfJoinAttempts) := by
  unfold run_once
  have hg : ¬(({ st with attempts := st.attempts + 1 } : TaskState).never_joined = true ∧
      st.attempts + 1 > cfg.join_attempts) := by
    simp [h]
  rw [if_neg hg]
  cases a with
  | fail is404 =>
      refine ⟨by simpa using h, ?_⟩
      simp
  | ok items =>
      have hl := runLoop_nj cfg items { st with attempts := st.attempts + 1 } (by simpa using h)
      have hno := runLoop_no_ooja cfg items { st with attempts := st.attempts + 1 }
      cases hres : (runLoop cfg { st with attempts := st.attempts + 1 } items).2.2 with
      | brokeOk => simp only [hres]; exact ⟨hl, by simp⟩
      | brokeNoRefs => simp only [hres]; exact ⟨hl, by simp⟩
      | pending => simp only [hres]; exact ⟨hl, by simp⟩
      | earlyErr e =>
          simp only [hres]
          refine ⟨hl, ?_⟩
          rw [hres] at hno
          have he : e ≠ .OutOfJoinAttempts := by
            intro hh
            exact hno (by rw [hh])
          simp only [ne_eq, RunRes.err.injEq]
          exact he

/-- The run loop never stops with OutOfJoinAttempts once never_joined is
false — which Client::new makes it from the start. -/
theorem runFrom_no_ooja (cfg : CConfig) :
    ∀ (script : List Attempt) (st : TaskState), st.never_joined = false →
      (runFrom cfg st script).2 ≠ some (.OutOfJoinAttempts) := by
  intro script
  induction script with
  | nil => intro st h; simp [runFrom]
  | cons a rest ih =>
      intro st h
      obtain ⟨hnj, hne⟩ := run_once_nj cfg st a h
      simp only [runFrom]
      cases hres : (run_once cfg st a).2.2 with
      | ok => simp only [hres]; exact ih _ hnj
      | pending => simp only [hres]; simp
      | err e =>
          simp only [hres]
          by_cases hf : e.is_fatal = true
          · rw [if_pos hf]
            have he : e ≠ .OutOfJoinAttempts := by
              intro hh
              rw [hres, hh] at hne
              exact hne rfl
            simp [he]
          · rw [if_neg hf]
            exact ih _ hnj

/-- run expressed over runFrom (definitional). -/
theorem run_eval (cfg : CConfig) (script : List Attempt) :
    run cfg script =
      ((CEv.started :: (runFrom cfg TaskState.initial script).1) ++
        (match (runFrom cfg TaskState.initial script).2 with
          | some _ => [CEv.stopped]
          | none => []),
        (runFrom cfg TaskState.initial script).2) := rfl

/-- The client configuration used in concrete supervisor scenarios. -/
def cfg0 : CConfig :=
  { join_attempts := 5, password := none, username := none, force_username := false }

/-! ### Claim C3: the client event grammar -/

/-- C3 (counterexample): the spec grammar demands a Disconnected after
every Connecting — including for a connect attempt whose socket open
fails. A single failed connect attempt with an HTTP 404 produces the event
sequence Started, Connecting, Stopped, with no Disconnected between the
Connecting and the Stopped: the sequence the task emits is rejected by the
spec's grammar (and accepted by the grammar the code actually follows). -/
theorem c3_spec_grammar_counterexample :
    run cfg0 [Attempt.fail true] =
      ([CEv.started, CEv.connecting, CEv.stopped], some (.Euphoxide true)) ∧
    specTraceOk [CEv.started, CEv.connecting, CEv.stopped] = false ∧
    traceOk [CEv.started, CEv.connecting, CEv.stopped] = true := by
  decide

/-- C3 (amended): for every client task, the emitted event sequence matches
Started (Connecting (Connected (Packet Joined?)* Disconnected?)?)* Stopped?,
where Stopped appears exactly once and last when the task terminates (and
not at all while it is still running) — but a Connecting is not always
followed by a Disconnected: Disconnected is emitted only when a
successfully opened connection ended by a clean close or by the loss of
all handles; a failed socket open, an error mid-connection, or a stop
command produce no Disconnected. -/
theorem c3_event_grammar_amended (cfg : CConfig) (script : List Attempt) :
    traceOk (run cfg script).1 = true ∧
    (run cfg script).1.count CEv.stopped = (if (run cfg script).2.isSome then 1 else 0) ∧
    ((run cfg script).2.isSome → (run cfg script).1.getLast? = some CEv.stopped) := by
  obtain ⟨q, hq, hlive⟩ := runFrom_trace cfg script TaskState.initial .between (Or.inl rfl)
  have hbody := runFrom_no_stop cfg script TaskState.initial
  have h1 : traceRun TraceState.expectStart
      (CEv.started :: (runFrom cfg TaskState.initial script).1) = some q := by
    show traceRun TraceState.between (runFrom cfg TaskState.initial script).1 = some q
    exact hq
  cases hres : (runFrom cfg TaskState.initial script).2 with
  | none =>
      refine ⟨?_, ?_, ?_⟩
      · rw [run_eval, hres]
        unfold traceOk
        rw [traceRun_append, h1]
        rfl
      · rw [run_eval, hres]
        simp only [Option.isSome_none, Bool.false_eq_true, if_false]
        rw [List.count_append, List.count_cons]
        rw [List.count_eq_zero.mpr hbody]
        simp
      · rw [run_eval, hres]
        intro hsome
        simp at hsome
  | some e =>
      have hstop : traceRun q [CEv.stopped] = some TraceState.done := by
        rcases hlive with rfl | rfl | rfl | rfl <;> rfl
      refine ⟨?_, ?_, ?_⟩
      · rw [run_eval, hres]
        unfold traceOk
        rw [traceRun_append, h1]
        show (traceRun q [CEv.stopped]).isSome = true
        rw [hstop]
        rfl
      · rw [run_eval, hres]
        simp only [Option.isSome_some, if_true]
        rw [List.count_append, List.count_cons]
        rw [List.count_eq_zero.mpr hbody]
        simp
      · rw [run_eval, hres]
        intro _
        exact getLast?_append_singleton _ _

/-- C3 witness: the amended grammar theorem applied at a concrete script
whose task terminates. -/
theorem c3_event_grammar_witness :
    traceOk (run cfg0 [Attempt.fail true]).1 = true ∧
    (run cfg0 [Attempt.fail true]).1.count CEv.stopped =
      (if (run cfg0 [Attempt.fail true]).2.isSome then 1 else 0) ∧
    (run cfg0 [Attempt.fail true]).1.getLast? = some CEv.stopped :=
  ⟨(c3_event_grammar_amended cfg0 [Attempt.fail true]).1,
   (c3_event_grammar_amended cfg0 [Attempt.fail true]).2.1,
   (c3_event_grammar_amended cfg0 [Attempt.fail true]).2.2 (by decide)⟩

/-! ### Claim C4: the join-attempt budget -/

/-- C4 (code bug): the supervisor can never terminate with
OutOfJoinAttempts, because Client::new initializes never_joined to false
and nothing ever sets it to true (on_joined only clears it), so the guard
in run_once is always false. In particular, a client that never reaches a
snapshot does not stop after join_attempts + 1 connect attempts: with the
default join_attempts of 5, a script of 7 failed connect attempts yields 7
Connecting events and a still-running task, where the claim predicts at
most 6 attempts followed by a fatal stop. -/
theorem c4_out_of_join_attempts_unreachable :
    (∀ (cfg : CConfig) (script : List Attempt),
      (run cfg script).2 ≠ some (ClientError.OutOfJoinAttempts)) ∧
    run cfg0 (List.replicate 7 (Attempt.fail false)) =
      (CEv.started :: List.replicate 7 CEv.connecting, none) ∧
    (run cfg0 (List.replicate 7 (Attempt.fail false))).1.count CEv.connecting = 7 := by
  refine ⟨?_, by decide, by decide⟩
  intro cfg script
  show (runFrom cfg TaskState.initial script).2 ≠ some (ClientError.OutOfJoinAttempts)
  exact runFrom_no_ooja cfg script TaskState.initial rfl

end Euphoxide
